import Mathlib

/-!
Shallow embedding of the lint aggregation and text/structure synchronization
engine of the writing-helper browser extension, together with proofs about it.

Source files embedded here:
  - `src/background/custom-rules.js` (`COMMON_MISSPELLINGS`, `runCustomRules`,
    `detectRunOnClauses`),
  - `src/background/service-worker.js` (`fixHarperSuggestions`,
    `fixDoubledLetters`, `matchCase`, `requestAIProofread`),
  - `src/content/linter-client.js` (`LinterClient.lint`, and the current
    `ContentEditableHandler`: `buildTextMap`, `findNodeAtOffset`,
    `_getParagraphRange`, `applyAllFixes`).

JavaScript strings are modelled as `List Char`; character offsets are `Nat`.
Browser primitives (DOM `Range` edits via `execCommand`, `chrome.runtime`
messaging) are modelled as explicit parameters, since they are external
to the repository.
-/

namespace WH

/-- Characters of a JavaScript string. -/
abbrev Str := List Char

/-- Convert a Lean string literal to the `Str` representation. -/
def str (x : String) : Str := x.toList

/-- The whitespace characters recognised here (ASCII subset of JS `\s` /
`String.prototype.trim`; all texts in this development are ASCII). -/
def isWsChar (c : Char) : Bool :=
  c == ' ' || c == '\t' || c == '\n' || c == '\r' || c == '\x0b' || c == '\x0c'

/-- JS `String.prototype.trim` (ASCII whitespace). -/
def jsTrim (t : Str) : Str :=
  ((t.dropWhile isWsChar).reverse.dropWhile isWsChar).reverse

/-- JS `String.prototype.toLowerCase` (ASCII). -/
def toLowerStr (t : Str) : Str := t.map Char.toLower

/-- JS `String.prototype.toUpperCase` (ASCII). -/
def toUpperStr (t : Str) : Str := t.map Char.toUpper

/-- Helper for `indexOfStr`: scan the haystack left to right. -/
def indexOfAux (pat : Str) : Str → Nat → Option Nat
  | [], i => if pat.isPrefixOf [] then some i else none
  | h :: t, i => if pat.isPrefixOf (h :: t) then some i else indexOfAux pat t (i + 1)

/-- JS `String.prototype.indexOf`: position of the first occurrence of `pat`
in `hay`, `none` for the JS result `-1`. -/
def indexOfStr (hay pat : Str) : Option Nat := indexOfAux pat hay 0

/-- JS `String.prototype.substring` (clamps both arguments to the string
length and swaps them when given in descending order). -/
def jsSubstring (t : Str) (a b : Nat) : Str :=
  let lo := min (min a b) t.length
  let hi := min (max a b) t.length
  (t.drop lo).take (hi - lo)

/-- JS `String.prototype.slice` for the in-range, ascending case in which the
source uses it (`text.slice(fullStart, fullEnd)`). -/
def jsSlice (t : Str) (a b : Nat) : Str := (t.drop a).take (b - a)

/-- JS `String.prototype.includes` specialised to a single character. -/
def containsChar (t : Str) (c : Char) : Bool := t.contains c

/-- JS `String.prototype.indexOf(ch, from)` for a single character. -/
def indexOfCharFrom (t : Str) (c : Char) (start : Nat) : Option Nat :=
  (List.range t.length).find? (fun i => decide (start ≤ i) && t.getD i ' ' == c)

/-- JS `String.prototype.lastIndexOf(ch, from)` for a single character:
the largest index `i ≤ from` holding `c`. -/
def lastIndexOfCharFrom (t : Str) (c : Char) (start : Nat) : Option Nat :=
  ((List.range t.length).filter (fun i => decide (i ≤ start) && t.getD i ' ' == c)).getLast?

/-- Lookup in an association list keyed by `Str` (models `Map.get` /
own-property access on a JS object literal, whose keys are unique here). -/
def lookupStr (m : List (Str × α)) (k : Str) : Option α :=
  (m.find? (fun p => p.1 == k)).map (fun p => p.2)

/-- A half-open span `[start, endPos)` into one text snapshot
(`{ start, end }` in the source; `end` is a Lean keyword). -/
structure Span where
  start : Nat
  endPos : Nat
deriving Repr, DecidableEq

/-- One suggested replacement (`{ text, kind }` in the source). -/
structure Suggestion where
  text : Str
  kind : Str
deriving Repr, DecidableEq

/-- A lint record, in the shape produced by the Harper serializer and by
`runCustomRules`. -/
structure Lint where
  span : Span
  message : Str
  lintKind : Str
  lintKindPretty : Str
  category : Str
  problemText : Str
  suggestions : List Suggestion
deriving Repr, DecidableEq

/-- The half-open overlap test used throughout the source:
`start < oe && end > os`. -/
def spansOverlapB (s e os oe : Nat) : Bool :=
  decide (s < oe) && decide (e > os)

/-- `occupied.some(([os, oe]) => start < oe && end > os)` from the source. -/
def overlapsAnyB (occ : List (Nat × Nat)) (s e : Nat) : Bool :=
  occ.any (fun p => spansOverlapB s e p.1 p.2)

/-! ### `LinterClient` (src/content/linter-client.js)

`LinterClient.lint` keeps a memo `cache : Map<text, lints>` and sends a
`{ type: 'lint', text }` message to the background engine on a miss.  The
message send is external: it is modelled by the `send` parameter, where
`.error` models a thrown `sendMessage` and `.ok resp` models a response
(`resp = none` models a null/shapeless response, so that
`response?.lints || []` yields `[]`). -/

/-- Result of `LinterClient.lint`: the returned lints, the cache afterwards,
and whether a request was sent to the background engine. -/
structure LintCallResult where
  lints : List Lint
  cache : List (Str × List Lint)
  sentRequest : Bool
deriving Repr, DecidableEq

/-- `LinterClient.lint` from src/content/linter-client.js. -/
def linterClientLint (cache : List (Str × List Lint)) (text : Str)
    (send : Except Unit (Option (List Lint))) : LintCallResult :=
  if text = [] ∨ (jsTrim text).length < 2 then
    { lints := [], cache := cache, sentRequest := false }
  else
    match lookupStr cache text with
    | some v => { lints := v, cache := cache, sentRequest := false }
    | none =>
      match send with
      | .error _ => { lints := [], cache := cache, sentRequest := true }
      | .ok resp =>
        let lints := resp.getD []
        let cache1 := cache ++ [(text, lints)]
        let cache2 := if cache1.length > 50 then cache1.drop 1 else cache1
        { lints := lints, cache := cache2, sentRequest := true }


/-! ### Common misspellings dictionary (src/background/custom-rules.js)

`COMMON_MISSPELLINGS` maps lowercase misspelled words to canonical
corrections.  It is consulted by `fixHarperSuggestions` via own-property
lookup with keys that are actual dictionary keys (all lowercase, unique). -/

def COMMON_MISSPELLINGS : List (Str × Str) := [
  (str "writting", str "writing"),
  (str "writeing", str "writing"),
  (str "comming", str "coming"),
  (str "runing", str "running"),
  (str "begining", str "beginning"),
  (str "occuring", str "occurring"),
  (str "occured", str "occurred"),
  (str "occurence", str "occurrence"),
  (str "occurrance", str "occurrence"),
  (str "recieve", str "receive"),
  (str "reciept", str "receipt"),
  (str "recieved", str "received"),
  (str "beleive", str "believe"),
  (str "beleived", str "believed"),
  (str "belive", str "believe"),
  (str "belived", str "believed"),
  (str "wierd", str "weird"),
  (str "freind", str "friend"),
  (str "freinds", str "friends"),
  (str "thier", str "their"),
  (str "untill", str "until"),
  (str "tommorrow", str "tomorrow"),
  (str "tommorow", str "tomorrow"),
  (str "tomorow", str "tomorrow"),
  (str "tomorrrow", str "tomorrow"),
  (str "accomodate", str "accommodate"),
  (str "acommodate", str "accommodate"),
  (str "accross", str "across"),
  (str "adress", str "address"),
  (str "adres", str "address"),
  (str "agressive", str "aggressive"),
  (str "agresive", str "aggressive"),
  (str "apparantly", str "apparently"),
  (str "apparentely", str "apparently"),
  (str "aquire", str "acquire"),
  (str "arguement", str "argument"),
  (str "arguemnt", str "argument"),
  (str "basicly", str "basically"),
  (str "beatiful", str "beautiful"),
  (str "beautifull", str "beautiful"),
  (str "buisness", str "business"),
  (str "busness", str "business"),
  (str "calender", str "calendar"),
  (str "catagory", str "category"),
  (str "catagories", str "categories"),
  (str "cemetary", str "cemetery"),
  (str "changable", str "changeable"),
  (str "collegue", str "colleague"),
  (str "comittee", str "committee"),
  (str "commitee", str "committee"),
  (str "commited", str "committed"),
  (str "comparision", str "comparison"),
  (str "competance", str "competence"),
  (str "concious", str "conscious"),
  (str "consciencious", str "conscientious"),
  (str "concensus", str "consensus"),
  (str "consistant", str "consistent"),
  (str "continous", str "continuous"),
  (str "contraversy", str "controversy"),
  (str "convienient", str "convenient"),
  (str "convienence", str "convenience"),
  (str "copywrite", str "copyright"),
  (str "critisism", str "criticism"),
  (str "critisize", str "criticize"),
  (str "curiousity", str "curiosity"),
  (str "definately", str "definitely"),
  (str "definatly", str "definitely"),
  (str "definitly", str "definitely"),
  (str "defintely", str "definitely"),
  (str "desparate", str "desperate"),
  (str "develope", str "develop"),
  (str "developement", str "development"),
  (str "diferent", str "different"),
  (str "diffrent", str "different"),
  (str "dilema", str "dilemma"),
  (str "dilemna", str "dilemma"),
  (str "disapear", str "disappear"),
  (str "disappear", str "disappear"),
  (str "dissapear", str "disappear"),
  (str "dissapoint", str "disappoint"),
  (str "disapoint", str "disappoint"),
  (str "embarass", str "embarrass"),
  (str "embarras", str "embarrass"),
  (str "embarassed", str "embarrassed"),
  (str "enviroment", str "environment"),
  (str "enviorment", str "environment"),
  (str "equipement", str "equipment"),
  (str "equiptment", str "equipment"),
  (str "exagerate", str "exaggerate"),
  (str "exagerrate", str "exaggerate"),
  (str "excercise", str "exercise"),
  (str "exercize", str "exercise"),
  (str "existance", str "existence"),
  (str "experiance", str "experience"),
  (str "explaination", str "explanation"),
  (str "facinating", str "fascinating"),
  (str "fianlly", str "finally"),
  (str "finaly", str "finally"),
  (str "flourescent", str "fluorescent"),
  (str "foriegn", str "foreign"),
  (str "fourty", str "forty"),
  (str "fullfill", str "fulfill"),
  (str "garauntee", str "guarantee"),
  (str "garantee", str "guarantee"),
  (str "goverment", str "government"),
  (str "govermnent", str "government"),
  (str "governmnet", str "government"),
  (str "grammer", str "grammar"),
  (str "gramar", str "grammar"),
  (str "grevious", str "grievous"),
  (str "guidence", str "guidance"),
  (str "happend", str "happened"),
  (str "harrass", str "harass"),
  (str "harrassment", str "harassment"),
  (str "heighth", str "height"),
  (str "hieght", str "height"),
  (str "heirarchy", str "hierarchy"),
  (str "humourous", str "humorous"),
  (str "hygeine", str "hygiene"),
  (str "idiosyncracy", str "idiosyncrasy"),
  (str "ignorence", str "ignorance"),
  (str "imaginery", str "imaginary"),
  (str "immediatly", str "immediately"),
  (str "immedietly", str "immediately"),
  (str "imediately", str "immediately"),
  (str "incidently", str "incidentally"),
  (str "independant", str "independent"),
  (str "indispensible", str "indispensable"),
  (str "innoculate", str "inoculate"),
  (str "inteligence", str "intelligence"),
  (str "intelligance", str "intelligence"),
  (str "interferance", str "interference"),
  (str "irresistable", str "irresistible"),
  (str "jeapardy", str "jeopardy"),
  (str "jewlery", str "jewelry"),
  (str "judgement", str "judgment"),
  (str "knowlege", str "knowledge"),
  (str "knowledgable", str "knowledgeable"),
  (str "langauge", str "language"),
  (str "languege", str "language"),
  (str "lenght", str "length"),
  (str "liason", str "liaison"),
  (str "libary", str "library"),
  (str "liberry", str "library"),
  (str "lisence", str "license"),
  (str "lonelyness", str "loneliness"),
  (str "maintenence", str "maintenance"),
  (str "maintainance", str "maintenance"),
  (str "managment", str "management"),
  (str "manageing", str "managing"),
  (str "manuever", str "maneuver"),
  (str "manuver", str "maneuver"),
  (str "medeval", str "medieval"),
  (str "millenium", str "millennium"),
  (str "millenial", str "millennial"),
  (str "minature", str "miniature"),
  (str "mischievious", str "mischievous"),
  (str "mispell", str "misspell"),
  (str "misspel", str "misspell"),
  (str "morgage", str "mortgage"),
  (str "neccessary", str "necessary"),
  (str "neccesary", str "necessary"),
  (str "necesary", str "necessary"),
  (str "neccessity", str "necessity"),
  (str "negociate", str "negotiate"),
  (str "nieghbor", str "neighbor"),
  (str "neighbour", str "neighbor"),
  (str "noticable", str "noticeable"),
  (str "occassion", str "occasion"),
  (str "occassionally", str "occasionally"),
  (str "ocassion", str "occasion"),
  (str "offical", str "official"),
  (str "opertunity", str "opportunity"),
  (str "oppurtunity", str "opportunity"),
  (str "opprotunity", str "opportunity"),
  (str "orignal", str "original"),
  (str "outragous", str "outrageous"),
  (str "parliment", str "parliament"),
  (str "particulary", str "particularly"),
  (str "pastime", str "pastime"),
  (str "percieve", str "perceive"),
  (str "performence", str "performance"),
  (str "permanant", str "permanent"),
  (str "permision", str "permission"),
  (str "perseverence", str "perseverance"),
  (str "personel", str "personnel"),
  (str "personnell", str "personnel"),
  (str "pharoah", str "pharaoh"),
  (str "peice", str "piece"),
  (str "playwrite", str "playwright"),
  (str "politican", str "politician"),
  (str "posession", str "possession"),
  (str "possesion", str "possession"),
  (str "potatos", str "potatoes"),
  (str "tomatos", str "tomatoes"),
  (str "precede", str "precede"),
  (str "predjudice", str "prejudice"),
  (str "presance", str "presence"),
  (str "privelege", str "privilege"),
  (str "priviledge", str "privilege"),
  (str "probaly", str "probably"),
  (str "probabaly", str "probably"),
  (str "proffessor", str "professor"),
  (str "professer", str "professor"),
  (str "proffessional", str "professional"),
  (str "profesional", str "professional"),
  (str "programing", str "programming"),
  (str "prononciation", str "pronunciation"),
  (str "pronounciation", str "pronunciation"),
  (str "propoganda", str "propaganda"),
  (str "psycology", str "psychology"),
  (str "publically", str "publicly"),
  (str "pursuade", str "persuade"),
  (str "questionaire", str "questionnaire"),
  (str "questionnare", str "questionnaire"),
  (str "realy", str "really"),
  (str "realise", str "realize"),
  (str "reccomend", str "recommend"),
  (str "reccommend", str "recommend"),
  (str "recomend", str "recommend"),
  (str "recommed", str "recommend"),
  (str "refered", str "referred"),
  (str "referance", str "reference"),
  (str "refrence", str "reference"),
  (str "relevent", str "relevant"),
  (str "religous", str "religious"),
  (str "religon", str "religion"),
  (str "remeber", str "remember"),
  (str "rember", str "remember"),
  (str "remmember", str "remember"),
  (str "renoverat", str "renovate"),
  (str "repitition", str "repetition"),
  (str "restarant", str "restaurant"),
  (str "restaraunt", str "restaurant"),
  (str "rythm", str "rhythm"),
  (str "rhythem", str "rhythm"),
  (str "ridiculus", str "ridiculous"),
  (str "sacrilegious", str "sacrilegious"),
  (str "saftey", str "safety"),
  (str "scedule", str "schedule"),
  (str "shedule", str "schedule"),
  (str "scholership", str "scholarship"),
  (str "sargent", str "sergeant"),
  (str "seize", str "seize"),
  (str "sentance", str "sentence"),
  (str "seperate", str "separate"),
  (str "seperately", str "separately"),
  (str "seargent", str "sergeant"),
  (str "sieze", str "seize"),
  (str "similer", str "similar"),
  (str "sincerly", str "sincerely"),
  (str "skilfull", str "skillful"),
  (str "speach", str "speech"),
  (str "strentgh", str "strength"),
  (str "strenght", str "strength"),
  (str "succesful", str "successful"),
  (str "successfull", str "successful"),
  (str "succesfull", str "successful"),
  (str "supercede", str "supersede"),
  (str "suprise", str "surprise"),
  (str "surpise", str "surprise"),
  (str "surprize", str "surprise"),
  (str "surveilance", str "surveillance"),
  (str "temperture", str "temperature"),
  (str "tempature", str "temperature"),
  (str "tendancy", str "tendency"),
  (str "therefor", str "therefore"),
  (str "threshhold", str "threshold"),
  (str "throught", str "throughout"),
  (str "tounge", str "tongue"),
  (str "tradgedy", str "tragedy"),
  (str "truely", str "truly"),
  (str "tyranney", str "tyranny"),
  (str "unecessary", str "unnecessary"),
  (str "unneccesary", str "unnecessary"),
  (str "useable", str "usable"),
  (str "usefull", str "useful"),
  (str "vaccum", str "vacuum"),
  (str "vegatable", str "vegetable"),
  (str "vehical", str "vehicle"),
  (str "visious", str "vicious"),
  (str "wether", str "whether"),
  (str "wich", str "which"),
  (str "wilfull", str "willful"),
  (str "withold", str "withhold"),
  (str "writen", str "written"),
  (str "writtten", str "written"),
  (str "javascript", str "JavaScript"),
  (str "typescript", str "TypeScript"),
  (str "programm", str "program"),
  (str "progam", str "program"),
  (str "databse", str "database"),
  (str "datbase", str "database"),
  (str "repositry", str "repository"),
  (str "repsoitory", str "repository"),
  (str "dependancy", str "dependency"),
  (str "dependancies", str "dependencies"),
  (str "implmentation", str "implementation"),
  (str "implimentation", str "implementation"),
  (str "configuraion", str "configuration"),
  (str "configuraton", str "configuration"),
  (str "initalize", str "initialize"),
  (str "intiialize", str "initialize"),
  (str "authentification", str "authentication"),
  (str "authenication", str "authentication"),
  (str "fucntion", str "function"),
  (str "funciton", str "function"),
  (str "paramter", str "parameter"),
  (str "paramater", str "parameter"),
  (str "compnent", str "component"),
  (str "componenet", str "component"),
  (str "repsone", str "response"),
  (str "repsonse", str "response")
]

/-- Dictionary lookup, `COMMON_MISSPELLINGS[problem]` for an actual key. -/
def lookupMiss (key : Str) : Option Str := lookupStr COMMON_MISSPELLINGS key

/-! ### Suggestion post-processing (src/background/service-worker.js) -/

/-- The lowercase consonants of the character class
`[bcdfghjklmnpqrstvwxyz]` in `fixDoubledLetters`. -/
def isLowerConsonant (c : Char) : Bool :=
  decide ('a' ≤ c) && decide (c ≤ 'z') &&
  !(c == 'a' || c == 'e' || c == 'i' || c == 'o' || c == 'u')

/-- The global replace `word.replace(/([bcdfghjklmnpqrstvwxyz])\1/g, '$1')`:
scan left to right, collapse each doubled lowercase consonant pair to one
letter, and continue after the replaced pair. -/
def collapseDoubled : Str → Str
  | [] => []
  | [c] => [c]
  | c1 :: c2 :: rest =>
    if isLowerConsonant c1 && c1 == c2 then c1 :: collapseDoubled rest
    else c1 :: collapseDoubled (c2 :: rest)

/-- `fixDoubledLetters` from src/background/service-worker.js: `none`
models the JS return value `null`. -/
def fixDoubledLetters (word : Str) : Option Str :=
  let deduped := collapseDoubled word
  if deduped ≠ word then some deduped else none

/-- `matchCase` from src/background/service-worker.js (the falsy guard is
emptiness for our strings). -/
def matchCase (fixed original : Str) : Str :=
  if original = [] ∨ fixed = [] then fixed
  else if original = toUpperStr original then toUpperStr fixed
  else if original.headD ' ' == Char.toUpper (original.headD ' ') then
    match fixed with
    | [] => []
    | c :: rest => Char.toUpper c :: rest
  else fixed

/-- `suggestion.split(/\s+/)` (a leading whitespace run contributes a
leading empty part, a trailing run a trailing empty part, as in JS). -/
def splitWsGo (cur : Str) : Str → List Str
  | [] => [cur.reverse]
  | c :: rest =>
    if isWsChar c then cur.reverse :: splitWsGo [] (rest.dropWhile isWsChar)
    else splitWsGo (c :: cur) rest
  termination_by t => t.length
  decreasing_by
    · simp only [List.length_cons]
      have := (List.dropWhile_sublist (l := rest) isWsChar).length_le
      omega
    · simp

/-- `String.prototype.split(/\s+/)`. -/
def splitWs (t : Str) : List Str := splitWsGo [] t

/-- The body of the per-lint mutation loop of `fixHarperSuggestions`:
known-misspelling override, bad split-word suggestion filtering, and the
doubled-letter last-resort repair. -/
def fixLint (l : Lint) : Lint :=
  let problem := toLowerStr l.problemText
  if problem = [] then l
  else
    match lookupMiss problem with
    | some knownFix =>
      { l with suggestions := [⟨knownFix, str "ReplaceWith"⟩],
               message := str "Did you mean \"" ++ knownFix ++ str "\"?" }
    | none =>
      if containsChar problem ' ' = false then
        let sugg' := l.suggestions.filter (fun sg =>
          if containsChar sg.text ' ' then
            let parts := splitWs sg.text
            let allPartsReasonable := parts.all (fun p => decide (3 ≤ p.length))
            if allPartsReasonable = false then false
            else
              let combined := parts.flatten
              if ((combined.length : Int) - (problem.length : Int)).natAbs ≤ 1 then false
              else true
          else true)
        let l' := { l with suggestions := sugg' }
        if sugg' = [] ∧ (l.lintKind = str "Spelling" ∨ l.lintKind = str "Typo") then
          match fixDoubledLetters problem with
          | some fixed =>
            if fixed ≠ problem then
              { l' with suggestions := [⟨matchCase fixed l.problemText, str "ReplaceWith"⟩],
                        message := str "Did you mean \"" ++ matchCase fixed l.problemText ++ str "\"?" }
            else l'
          | none => l'
        else l'
      else l

/-- `fixHarperSuggestions` from src/background/service-worker.js: mutate
each lint in place, then run the trailing filter (which keeps every lint:
both of its branches return `true`). -/
def fixHarperSuggestions (lints : List Lint) : List Lint :=
  (lints.map fixLint).filter (fun l =>
    if l.suggestions = [] ∧ (l.lintKind = str "Spelling" ∨ l.lintKind = str "Typo")
    then true else true)

/-! ### AI proofread merge (src/background/service-worker.js)

`requestAIProofread(text, tabId, existingLints)` receives the offscreen
AI result (modelled by the `result` parameter; `none` models a shapeless
or unavailable response) and merges surviving corrections into the
per-tab store `tabLints`.  The function never consults the current page
text; the `text` argument is only echoed in the outgoing
`'ai-lints-update'` message. -/

/-- The offscreen AI proofread response. -/
structure AIProofreadResult where
  available : Bool
  corrections : List Lint
deriving Repr, DecidableEq

/-- `Map.set` on the `tabLints` store. -/
def setTab : List (Nat × List Lint) → Nat → List Lint → List (Nat × List Lint)
  | [], k, v => [(k, v)]
  | (k0, v0) :: rest, k, v =>
    if k0 = k then (k0, v) :: rest else (k0, v0) :: setTab rest k v

/-- Stable insertion step for ascending sort by `span.start` (the JS
`sort((a, b) => a.span.start - b.span.start)` is a stable sort). -/
def insertAscByStart (x : Lint) : List Lint → List Lint
  | [] => [x]
  | y :: ys =>
    if y.span.start < x.span.start then y :: insertAscByStart x ys
    else x :: y :: ys

/-- Stable ascending sort by `span.start`. -/
def sortAscByStart (l : List Lint) : List Lint := l.foldr insertAscByStart []

/-- The AI corrections surviving the overlap filter against the spans of
the existing lints. -/
def aiNonOverlapping (existingLints corrections : List Lint) : List Lint :=
  let occupied := existingLints.map (fun l => (l.span.start, l.span.endPos))
  corrections.filter (fun aiLint =>
    !(occupied.any (fun p =>
      decide (aiLint.span.start < p.2) && decide (aiLint.span.endPos > p.1))))

/-- `requestAIProofread` from src/background/service-worker.js, returning
the updated `tabLints` store and the payload of the `'ai-lints-update'`
message (if one is sent). -/
def requestAIProofread (text : Str) (tabId : Option Nat)
    (existingLints : List Lint) (result : Option AIProofreadResult)
    (tabLints : List (Nat × List Lint)) :
    List (Nat × List Lint) × Option (List Lint × Str) :=
  match result with
  | none => (tabLints, none)
  | some r =>
    if r.available = false ∨ r.corrections.length = 0 then (tabLints, none)
    else
      let newAILints := aiNonOverlapping existingLints r.corrections
      if newAILints.length = 0 then (tabLints, none)
      else
        let merged := sortAscByStart (existingLints ++ newAILints)
        match tabId with
        | some tid => (setTab tabLints tid merged, some (merged, text))
        | none => (tabLints, none)


/-! ### Text/tree mapping (`ContentEditableHandler` in src/content/linter-client.js)

A contenteditable subtree is a tree of text leaves and element nodes.  DOM
node identity is modelled by the node's path (list of child indices) from
the walked root.  A map entry stores that path together with the node's
`textContent` (field `content`; for a synthetic entry `content` holds the
inserted boundary character, the `char` field of the source). -/

/-- A DOM node: a text leaf, or an element with a tag name, class list and
children. -/
inductive DomNode where
  | text : Str → DomNode
  | elem : String → List String → List DomNode → DomNode
deriving Repr

/-- One entry of the `nodeMap` produced by `buildTextMap`. -/
structure MapEntry where
  path : Option (List Nat)
  content : Str
  start : Nat
  endPos : Nat
  synthetic : Bool
deriving Repr, DecidableEq

/-- State of the `walk` closure: entries pushed so far and the running
offset. -/
structure WalkSt where
  entries : List MapEntry
  offset : Nat
deriving Repr, DecidableEq

/-- The known inline HTML elements of `buildTextMap`; every other element
(including custom web components) is treated as a block boundary. -/
def inlineTags : List String :=
  ["A", "ABBR", "ACRONYM", "B", "BDI", "BDO", "BIG", "CITE", "CODE",
   "DATA", "DEL", "DFN", "EM", "FONT", "I", "IMG", "INS", "KBD",
   "LABEL", "MARK", "Q", "RP", "RT", "RUBY", "S", "SAMP", "SMALL",
   "SPAN", "STRIKE", "STRONG", "SUB", "SUP", "TIME", "TT", "U",
   "VAR", "WBR"]

/-- The class of the extension's own overlay container, skipped by the
walk. -/
def overlayClass : String := "spelling-tab-ce-container"

/-- Whether the previously pushed entry is a synthetic newline
(`prevEntry && prevEntry.synthetic && prevEntry.char === '\n'`). -/
def prevIsNewlineB (entries : List MapEntry) : Bool :=
  match entries.getLast? with
  | some e => e.synthetic && e.content == ['\n']
  | none => false

/-- Push a real text-node entry (`nodeMap.push({ node, start: offset,
end: offset + len, synthetic: false })`). -/
def pushText (st : WalkSt) (path : List Nat) (s : Str) : WalkSt :=
  { entries := st.entries ++
      [{ path := some path, content := s, start := st.offset,
         endPos := st.offset + s.length, synthetic := false }],
    offset := st.offset + s.length }

/-- Push a synthetic newline entry (`nodeMap.push({ node: null, start:
offset, end: offset + 1, synthetic: true, char: '\n' })`). -/
def pushNewline (st : WalkSt) : WalkSt :=
  { entries := st.entries ++
      [{ path := none, content := ['\n'], start := st.offset,
         endPos := st.offset + 1, synthetic := true }],
    offset := st.offset + 1 }

mutual

/-- The `walk` closure of `buildTextMap` on a non-root node.  In one walk
of a tree each element is visited exactly once, so the source's
`blockBreakInserted` set never rejects an insertion and is omitted. -/
def walkNode (st : WalkSt) (path : List Nat) : DomNode → WalkSt
  | .text s => if 0 < s.length then pushText st path s else st
  | .elem tag classes children =>
    if classes.contains overlayClass then st
    else if tag = "BR" then pushNewline st
    else
      let st1 :=
        if inlineTags.contains tag = false ∧ 0 < st.offset ∧
           prevIsNewlineB st.entries = false
        then pushNewline st else st
      walkChildren st1 path 0 children

/-- Walk the children of a node in order. -/
def walkChildren (st : WalkSt) (path : List Nat) (i : Nat) :
    List DomNode → WalkSt
  | [] => st
  | c :: cs => walkChildren (walkNode st (path ++ [i]) c) path (i + 1) cs

end

/-- The flat text built from the node map (`parts.push(entry.char)` for a
synthetic entry, `parts.push(entry.node.textContent)` otherwise — both are
the entry's `content` here). -/
def textOfEntries (es : List MapEntry) : Str :=
  (es.map (fun e => e.content)).flatten

/-- `buildTextMap(root)`: walk the root's children and return the flat
text together with the node map. -/
def buildTextMap (root : DomNode) : Str × List MapEntry :=
  let st :=
    match root with
    | .text _ => WalkSt.mk [] 0
    | .elem _ _ children => walkChildren (WalkSt.mk [] 0) [] 0 children
  (textOfEntries st.entries, st.entries)

/-- `findNodeAtOffset(nodeMap, offset)`: the first real entry containing
the offset, else the first real entry at or after it. -/
def findNodeAtOffset (nodeMap : List MapEntry) (offset : Nat) :
    Option MapEntry :=
  match nodeMap.find? (fun e =>
      !e.synthetic && decide (e.start ≤ offset) && decide (offset ≤ e.endPos)) with
  | some e => some e
  | none => nodeMap.find? (fun e => !e.synthetic && decide (offset ≤ e.start))

/-- `_getParagraphRange(text, cursorOffset)`: the newline-delimited block
around the cursor. -/
def getParagraphRange (text : Str) (cursorOffset : Nat) : Nat × Nat :=
  let start :=
    match lastIndexOfCharFrom text '\n' (cursorOffset - 1) with
    | some i => i + 1
    | none => 0
  let stop :=
    match indexOfCharFrom text '\n' cursorOffset with
    | some i => i
    | none => text.length
  (start, stop)

/-! ### Batch fix application (`applyAllFixes` in src/content/linter-client.js)

The DOM text replacement itself (`execCommand('insertText')` over a
selected `Range`) is a browser primitive and is modelled by the `edit`
parameter: it receives the tree, the resolved start and end locations
(node path and node-relative offset), and the replacement text. -/

/-- One fix collected by `applyAllFixes`: the original problem text,
chosen replacement, and the originally recorded span. -/
structure FixItem where
  problem : Str
  replacement : Str
  originalStart : Nat
  spanStart : Nat
  spanEnd : Nat
deriving Repr, DecidableEq

/-- Trace record of one iteration of the fix loop. -/
structure FixStep where
  fix : FixItem
  treeBefore : DomNode
  rebuiltText : Str
  located : Option Nat
  treeAfter : DomNode
deriving Repr

/-- The tracked per-element state used by `applyAllFixes` (`state.lints`,
`state.text`). -/
structure CEState where
  lints : List Lint
  text : Str
deriving Repr, DecidableEq

/-- An external DOM range edit: tree, start location, end location,
replacement text. -/
abbrev DomEdit := DomNode → (List Nat × Nat) → (List Nat × Nat) → Str → DomNode

/-- The local search window of the fix loop:
`text.substring(max(0, originalStart - 50), min(text.length,
originalStart + problem.length + 50))`. -/
def localWindow (text : Str) (fix : FixItem) : Str :=
  jsSubstring text (fix.originalStart - 50)
    (min text.length (fix.originalStart + fix.problem.length + 50))

/-- Relocation of one fix in the rebuilt text: search the bounded local
window around the originally recorded offset first (`nearbyText.indexOf`,
mapped back by `searchStart = max(0, originalStart - 50)`), and fall back
to a whole-text `indexOf` only when the window misses; `none` models the
JS result `-1` (fix skipped). -/
def fixLocate (text : Str) (fix : FixItem) : Option Nat :=
  match indexOfStr (localWindow text fix) fix.problem with
  | some localIdx => some (fix.originalStart - 50 + localIdx)
  | none => indexOfStr text fix.problem

/-- One iteration of the fix loop: rebuild the map from the current tree,
relocate the problem text via `fixLocate`, and apply the edit, skipping
the fix if the problem text is found nowhere or a range endpoint cannot
be resolved. -/
def applyFixStep (edit : DomEdit) (tree : DomNode) (fix : FixItem) : FixStep :=
  match fixLocate (buildTextMap tree).1 fix with
  | none => { fix := fix, treeBefore := tree, rebuiltText := (buildTextMap tree).1,
              located := none, treeAfter := tree }
  | some s =>
    match findNodeAtOffset (buildTextMap tree).2 s,
          findNodeAtOffset (buildTextMap tree).2 (s + fix.problem.length) with
    | some si, some ei =>
      { fix := fix, treeBefore := tree, rebuiltText := (buildTextMap tree).1,
        located := some s,
        treeAfter := edit tree (si.path.getD [], s - si.start)
          (ei.path.getD [],
           min (s + fix.problem.length - ei.start) ei.content.length)
          fix.replacement }
    | _, _ =>
      { fix := fix, treeBefore := tree, rebuiltText := (buildTextMap tree).1,
        located := some s, treeAfter := tree }

/-- The fix loop over the sorted fixes, collecting a trace. -/
def applyFixLoop (edit : DomEdit) : DomNode → List FixItem →
    DomNode × List FixStep
  | tree, [] => (tree, [])
  | tree, f :: fs =>
    let step := applyFixStep edit tree f
    let rest := applyFixLoop edit step.treeAfter fs
    (rest.1, step :: rest.2)

/-- The `fixable` filter of `applyAllFixes`: a fix needs a suggestion, its
snapshot text must not cross a newline, and (when the cursor paragraph is
known) its span must lie in that paragraph. -/
def fixableOf (st : CEState) (paraRange : Option (Nat × Nat)) : List Lint :=
  st.lints.filter (fun l =>
    decide (l.suggestions ≠ []) &&
    !containsChar (jsSubstring st.text l.span.start l.span.endPos) '\n' &&
    (match paraRange with
     | some pr => decide (pr.1 ≤ l.span.start) && decide (l.span.endPos ≤ pr.2)
     | none => true))

/-- Build the fix record of one fixable lint. -/
def mkFixItem (st : CEState) (l : Lint) : FixItem :=
  { problem := jsSubstring st.text l.span.start l.span.endPos,
    replacement := (l.suggestions.headD ⟨[], []⟩).text,
    originalStart := l.span.start,
    spanStart := l.span.start,
    spanEnd := l.span.endPos }

/-- Stable insertion step for the descending sort
`sort((a, b) => b.span.start - a.span.start)`. -/
def insertDescByStart (x : FixItem) : List FixItem → List FixItem
  | [] => [x]
  | y :: ys =>
    if x.spanStart < y.spanStart then y :: insertDescByStart x ys
    else x :: y :: ys

/-- Stable descending sort of the fixes by recorded span start. -/
def sortDescByStart (l : List FixItem) : List FixItem :=
  l.foldr insertDescByStart []

/-- The cursor paragraph: `cursorOffset >= 0 && state.text` guards the
`_getParagraphRange` call (`-1` models a cursor that was not found). -/
def paraRangeOf (st : CEState) (cursorOffset : Int) : Option (Nat × Nat) :=
  if 0 ≤ cursorOffset ∧ st.text ≠ [] then
    some (getParagraphRange st.text cursorOffset.toNat)
  else none

/-- The sorted fix list of one `applyAllFixes` call. -/
def fixesOf (st : CEState) (cursorOffset : Int) : List FixItem :=
  sortDescByStart ((fixableOf st (paraRangeOf st cursorOffset)).map (mkFixItem st))

/-- `applyAllFixes(element)` from src/content/linter-client.js.  The
cursor offset (obtained from the DOM selection in the source) is a
parameter; `-1` means the cursor was not found.  Returns the source's
boolean result, the final tree, and the loop trace. -/
def applyAllFixes (edit : DomEdit) (tree : DomNode) (st : CEState)
    (cursorOffset : Int) : Bool × DomNode × List FixStep :=
  if st.lints = [] then (false, tree, [])
  else if fixableOf st (paraRangeOf st cursorOffset) = [] then (false, tree, [])
  else
    (true, (applyFixLoop edit tree (fixesOf st cursorOffset)).1,
     (applyFixLoop edit tree (fixesOf st cursorOffset)).2)


/-! ### Run-on clause detection (src/background/custom-rules.js)

Both scans of `detectRunOnClauses` use regexes of the common shape
`([a-z]+)\s+(ALT2)\s+(ALT3)\b` with flags `gi`.  For this shape the JS
backtracking behaviour is deterministic except for the ordered
alternations: the first capture is the maximal ASCII letter run at the
match position (a shorter run would put a letter where `\s+` must match),
each `\s+` is the maximal whitespace run (a shorter run would put
whitespace where a letter alternative must match), and each alternation
tries its alternatives in source order with full backtracking into the
continuation.  `exec` with the `g` flag returns the leftmost match
starting at or after `lastIndex` and advances `lastIndex` to its end. -/

/-- `[a-z]` under the `i` flag: ASCII letters. -/
def isAsciiLetter (c : Char) : Bool :=
  (decide ('a' ≤ c) && decide (c ≤ 'z')) || (decide ('A' ≤ c) && decide (c ≤ 'Z'))

/-- A word character for `\b` (`[A-Za-z0-9_]`). -/
def isWordChar (c : Char) : Bool :=
  isAsciiLetter c || (decide ('0' ≤ c) && decide (c ≤ '9')) || c == '_'

/-- Case-insensitive match of one literal alternative at a position. -/
def matchesCIAt (text : Str) (pos : Nat) (alt : Str) : Bool :=
  decide (pos + alt.length ≤ text.length) &&
  toLowerStr (jsSlice text pos (pos + alt.length)) == toLowerStr alt

/-- Ordered alternation with backtracking into the continuation `k`
(which receives the captured text and the position after it). -/
def tryAlts (text : Str) (pos : Nat) (k : Str → Nat → Option γ) :
    List Str → Option γ
  | [] => none
  | a :: rest =>
    if matchesCIAt text pos a then
      match k (jsSlice text pos (pos + a.length)) (pos + a.length) with
      | some r => some r
      | none => tryAlts text pos k rest
    else tryAlts text pos k rest

/-- A match of the three-group pattern: start index, the three captured
groups, and the end of the whole match. -/
structure TriMatch where
  index : Nat
  g1 : Str
  g2 : Str
  g3 : Str
  stop : Nat
deriving Repr, DecidableEq

/-- Try the pattern `([a-z]+)\s+(altA)\s+(altB)\b` at one position. -/
def matchTriAt (altA altB : List Str) (text : Str) (p : Nat) :
    Option TriMatch :=
  let w1 := (text.drop p).takeWhile isAsciiLetter
  if w1 = [] then none
  else
    let p1 := p + w1.length
    let ws1 := (text.drop p1).takeWhile isWsChar
    if ws1 = [] then none
    else
      let p2 := p1 + ws1.length
      tryAlts text p2 (fun g2 p3 =>
        let ws2 := (text.drop p3).takeWhile isWsChar
        if ws2 = [] then none
        else
          let p4 := p3 + ws2.length
          tryAlts text p4 (fun g3 p5 =>
            if p5 = text.length ∨ isWordChar (text.getD p5 ' ') = false then
              some { index := p, g1 := w1, g2 := g2, g3 := g3, stop := p5 }
            else none) altB) altA

/-- The leftmost match of the pattern starting at or after position `p`
(the behaviour of `exec` with `lastIndex = p`); `fuel` bounds the scan. -/
def findTriFrom (altA altB : List Str) (text : Str) : Nat → Nat → Option TriMatch
  | 0, _ => none
  | fuel + 1, p =>
    if text.length < p then none
    else
      match matchTriAt altA altB text p with
      | some m => some m
      | none => findTriFrom altA altB text fuel (p + 1)

def subjectAlts : List Str := [
  str "I", str "he", str "she", str "it", str "we", str "they", str "you", str "this",
  str "that", str "there", str "don\x27t", str "doesn\x27t", str "didn\x27t", str "won\x27t", str "can\x27t", str "couldn\x27t",
  str "shouldn\x27t", str "isn\x27t", str "aren\x27t", str "wasn\x27t", str "weren\x27t"
]

def verbAlts : List Str := [
  str "am", str "is", str "are", str "was", str "were", str "have", str "has", str "had",
  str "do", str "does", str "did", str "will", str "would", str "can", str "could", str "should",
  str "might", str "may", str "don\x27t", str "doesn\x27t", str "didn\x27t", str "won\x27t", str "can\x27t", str "couldn\x27t",
  str "shouldn\x27t", str "went", str "go", str "goes", str "know", str "knew", str "knows", str "think",
  str "thought", str "thinks", str "want", str "wants", str "wanted", str "need", str "needs", str "needed",
  str "like", str "likes", str "liked", str "said", str "told", str "tell", str "tells", str "see",
  str "saw", str "sees", str "come", str "came", str "comes", str "make", str "made", str "makes",
  str "take", str "took", str "takes", str "give", str "gave", str "gives", str "find", str "found",
  str "finds", str "get", str "got", str "gets", str "let", str "lets", str "run", str "ran",
  str "runs", str "eat", str "ate", str "eats", str "keep", str "kept", str "keeps", str "buy",
  str "bought", str "buys", str "feel", str "felt", str "feels", str "hear", str "heard", str "hears",
  str "leave", str "left", str "leaves", str "put", str "read", str "show", str "showed", str "shows",
  str "sit", str "sat", str "sits", str "stand", str "stood", str "stands", str "start", str "started",
  str "starts", str "stop", str "stopped", str "stops", str "try", str "tried", str "tries", str "turn",
  str "turned", str "turns", str "use", str "used", str "uses", str "work", str "worked", str "works",
  str "write", str "wrote", str "writes", str "call", str "called", str "calls", str "pay", str "paid",
  str "pays", str "play", str "played", str "plays", str "seem", str "seemed", str "seems", str "help",
  str "helped", str "helps", str "talk", str "talked", str "talks", str "begin", str "began", str "begins",
  str "move", str "moved", str "moves", str "live", str "lived", str "lives", str "believe", str "believed",
  str "believes", str "bring", str "brought", str "brings", str "happen", str "happened", str "happens", str "must",
  str "shall", str "look", str "looked", str "looks", str "set", str "hold", str "held", str "holds",
  str "learn", str "learned", str "learns", str "change", str "changed", str "changes", str "follow", str "followed",
  str "follows", str "ask", str "asked", str "asks", str "miss", str "missed", str "just"
]

def imperativeVerbAlts : List Str := [
  str "keep", str "eat", str "take", str "make", str "give", str "get", str "put", str "let",
  str "try", str "go", str "come", str "run", str "stop", str "start", str "open", str "close",
  str "turn", str "pick", str "hold", str "bring", str "send", str "tell", str "ask", str "look",
  str "watch", str "check", str "read", str "write", str "call", str "find", str "set", str "cut",
  str "buy", str "sell", str "show", str "help", str "leave", str "move", str "use", str "play",
  str "pay", str "add", str "fix", str "clean", str "break", str "push", str "pull", str "throw",
  str "catch", str "drop", str "wait", str "sit", str "stand", str "walk", str "talk", str "listen",
  str "remember", str "forget", str "consider", str "imagine", str "think", str "see", str "feel", str "note",
  str "mark", str "follow", str "save", str "grab", str "pass", str "hand", str "build", str "draw",
  str "learn", str "teach", str "meet", str "join", str "choose", str "decide", str "plan", str "avoid",
  str "allow", str "accept", str "enjoy", str "finish", str "handle", str "manage", str "count", str "measure",
  str "sort", str "fill", str "share", str "post", str "sign", str "press", str "click", str "type",
  str "log", str "enter", str "remove", str "delete", str "create", str "update", str "select", str "change",
  str "replace"
]

def imperativeObjectAlts : List Str := [
  str "a", str "an", str "the", str "my", str "your", str "his", str "her", str "its",
  str "our", str "their", str "some", str "any", str "this", str "that", str "these", str "those",
  str "each", str "every", str "all", str "no", str "more", str "up", str "down", str "out",
  str "in", str "off", str "on", str "over", str "back", str "away", str "it", str "me",
  str "him", str "her", str "us", str "them", str "yourself", str "himself", str "herself", str "itself",
  str "ourselves", str "themselves"
]

def legitimatePreceding : List Str := [
  str "that", str "which", str "who", str "whom", str "whose", str "where", str "when", str "while",
  str "because", str "since", str "although", str "though", str "unless", str "until", str "if", str "whether",
  str "before", str "after", str "as", str "once", str "so", str "and", str "but", str "or",
  str "nor", str "for", str "yet", str "than", str "like", str "the", str "a", str "an",
  str "of", str "in", str "on", str "at", str "to", str "by", str "with", str "from",
  str "into", str "about", str "between", str "through", str "during", str "without", str "within", str "think",
  str "know", str "believe", str "say", str "said", str "told", str "tell", str "hope", str "wish",
  str "feel", str "see", str "saw", str "mean", str "meant", str "ensure", str "assume", str "suppose",
  str "guess", str "realize", str "notice", str "understand", str "imagine", str "suggest", str "recommend", str "ask",
  str "wonder", str "decide", str "how", str "what", str "why", str "i", str "he", str "she",
  str "it", str "we", str "they", str "you"
]

def clauseEndingWords : List Str := [
  str "day", str "days", str "time", str "times", str "night", str "nights", str "week", str "weeks",
  str "month", str "months", str "year", str "years", str "hour", str "hours", str "minute", str "minutes",
  str "morning", str "evening", str "afternoon", str "today", str "tomorrow", str "yesterday", str "now", str "then",
  str "here", str "there", str "home", str "work", str "school", str "well", str "too", str "also",
  str "again", str "already", str "always", str "never", str "ever", str "away", str "back", str "out",
  str "up", str "down", str "off", str "together", str "apart", str "right", str "wrong", str "good",
  str "bad", str "fine", str "sure", str "ready", str "done", str "finished", str "over", str "possible",
  str "true", str "false", str "way", str "place", str "thing", str "things", str "people", str "world",
  str "life", str "end", str "start", str "point", str "part", str "side", str "lot", str "bit",
  str "while", str "long", str "much", str "far", str "it", str "that", str "this", str "them",
  str "him", str "her", str "me", str "us"
]


/-- `charBefore` punctuation test shared by both scans. -/
def punctBefore (text : Str) (i : Nat) : Bool :=
  if i = 0 then false
  else
    let c := text.getD (i - 1) ' '
    c == ',' || c == ';' || c == '.' || c == '!' || c == '?' || c == ':'

/-- `w.charAt(0).toUpperCase() + w.slice(1)`. -/
def capFirst (w : Str) : Str :=
  match w with
  | [] => []
  | c :: rest => Char.toUpper c :: rest

/-- The first scan of `detectRunOnClauses` (independent-clause junctions):
word + subject + verb without preceding punctuation.  The `g`-flag `exec`
loop is modelled with `fuel` iterations (each real match is nonempty, so
`lastIndex` strictly advances and the fuel used below never runs out). -/
def runOnScan1 (text : Str) : Nat → Nat → List (Nat × Nat) → List Lint →
    List Lint × List (Nat × Nat)
  | 0, _, occ, res => (res, occ)
  | fuel + 1, li, occ, res =>
    match findTriFrom subjectAlts verbAlts text (text.length + 1) li with
    | none => (res, occ)
    | some m =>
      if legitimatePreceding.contains (toLowerStr m.g1) then
        runOnScan1 text fuel m.stop occ res
      else if punctBefore text m.index then
        runOnScan1 text fuel m.stop occ res
      else if overlapsAnyB occ m.index m.stop then
        runOnScan1 text fuel m.stop occ res
      else
        let lint : Lint :=
          { span := ⟨m.index, m.stop⟩,
            message := str "Possible run-on sentence. Add a comma, semicolon, or period between these clauses.",
            lintKind := str "Punctuation",
            lintKindPretty := str "Run-on Sentence",
            category := str "grammar",
            problemText := jsSlice text m.index m.stop,
            suggestions :=
              [⟨m.g1 ++ str ", " ++ m.g2 ++ str " " ++ m.g3, str "ReplaceWith"⟩,
               ⟨m.g1 ++ str "; " ++ m.g2 ++ str " " ++ m.g3, str "ReplaceWith"⟩,
               ⟨m.g1 ++ str ". " ++ capFirst m.g2 ++ str " " ++ m.g3, str "ReplaceWith"⟩] }
        runOnScan1 text fuel m.stop (occ ++ [(m.index, m.stop)]) (res ++ [lint])

/-- The second scan of `detectRunOnClauses` (imperative junctions):
clause-ending word + imperative verb + determiner/pronoun object. -/
def runOnScan2 (text : Str) : Nat → Nat → List (Nat × Nat) → List Lint →
    List Lint × List (Nat × Nat)
  | 0, _, occ, res => (res, occ)
  | fuel + 1, li, occ, res =>
    match findTriFrom imperativeVerbAlts imperativeObjectAlts text (text.length + 1) li with
    | none => (res, occ)
    | some m =>
      if clauseEndingWords.contains (toLowerStr m.g1) = false then
        runOnScan2 text fuel m.stop occ res
      else if punctBefore text m.index then
        runOnScan2 text fuel m.stop occ res
      else if legitimatePreceding.contains (toLowerStr m.g1) then
        runOnScan2 text fuel m.stop occ res
      else if overlapsAnyB occ m.index m.stop then
        runOnScan2 text fuel m.stop occ res
      else
        let lint : Lint :=
          { span := ⟨m.index, m.stop⟩,
            message := str "Possible run-on sentence. Add a comma or period before \"" ++
              m.g2 ++ str "\".",
            lintKind := str "Punctuation",
            lintKindPretty := str "Run-on Sentence",
            category := str "grammar",
            problemText := jsSlice text m.index m.stop,
            suggestions :=
              [⟨m.g1 ++ str ", " ++ m.g2 ++ str " " ++ m.g3, str "ReplaceWith"⟩,
               ⟨m.g1 ++ str ". " ++ capFirst m.g2 ++ str " " ++ m.g3, str "ReplaceWith"⟩] }
        runOnScan2 text fuel m.stop (occ ++ [(m.index, m.stop)]) (res ++ [lint])

/-- `detectRunOnClauses(text, occupied)`: both scans in order, sharing the
occupied span list; returns the produced lints and the final occupied
list. -/
def detectRunOnClauses (text : Str) (occupied : List (Nat × Nat)) :
    List Lint × List (Nat × Nat) :=
  let r1 := runOnScan1 text (text.length + 1) 0 occupied []
  runOnScan2 text (text.length + 1) 0 r1.2 r1.1

/-! ### The pattern-rule evaluator (`runCustomRules` in
src/background/custom-rules.js)

The rule table entries hold compiled regexes and possibly-throwing
`message` / `suggest` callbacks.  A rule's regex is modelled by its pure
match semantics `exec text lastIndex` (deterministic for a fixed regex
source and flags), together with the `lastIndex` field that a JS `RegExp`
object carries; `runCustomRules` compiles a fresh copy per pass
(`new RegExp(rule.regex.source, rule.regex.flags)`), so evaluation always
scans from `lastIndex = 0` and never reads or writes the table's field.
Callback results are `Except Unit _`: `.error` models a thrown
exception. -/

/-- The spans of a lint list, as `(start, endPos)` pairs. -/
def SpansOf (ls : List Lint) : List (Nat × Nat) :=
  ls.map (fun l => (l.span.start, l.span.endPos))

/-- A regex match: start index, matched text `m[0]`, and capture groups
(`groups[k]` models `m[k+1]`; `none` models an unmatched group). -/
structure MatchRes where
  index : Nat
  matched : Str
  groups : List (Option Str)
deriving Repr, DecidableEq

/-- One entry of the `RULES` table. -/
structure CustomRule where
  enabled : Bool
  lastIndex : Nat
  exec : Str → Nat → Option MatchRes
  matchIdx : Nat
  message : MatchRes → Except Unit Str
  suggest : MatchRes → Except Unit (List Str)
  kind : Str
  pretty : Str
  category : Str

/-- Accumulator of one evaluation pass: the occupied spans and the
accepted lints, both appended in acceptance order. -/
structure AccSt where
  occupied : List (Nat × Nat)
  results : List Lint
deriving Repr, DecidableEq

/-- The `while ((match = regex.exec(text)) !== null)` loop for one rule.
`fuel` bounds the iteration count (each real match of the table's rules
is nonempty, so `lastIndex` strictly advances and `text.length + 1`
iterations suffice; a JS `exec` loop over an empty match would not
terminate at all). -/
def ruleMatchedText (r : CustomRule) (m : MatchRes) : Str :=
  if r.matchIdx = 0 then m.matched
  else
    match m.groups.getD (r.matchIdx - 1) none with
    | some g => if g = [] then m.matched else g
    | none => m.matched

/-- The accepted span of a match: the whole match for `match: 0`,
otherwise the captured group located inside the full match by substring
search from the match start (`fullMatch.indexOf(matchedText)`, clamped to
`0` when not found). -/
def ruleSpan (r : CustomRule) (m : MatchRes) : Nat × Nat :=
  if r.matchIdx = 0 then (m.index, m.index + m.matched.length)
  else
    let groupStart := (indexOfStr m.matched (ruleMatchedText r m)).getD 0
    (m.index + groupStart, m.index + groupStart + (ruleMatchedText r m).length)

/-- The lint record pushed for an accepted match. -/
def ruleLint (r : CustomRule) (text : Str) (m : MatchRes) (msg : Str)
    (suggs : List Str) : Lint :=
  { span := ⟨(ruleSpan r m).1, (ruleSpan r m).2⟩,
    message := msg,
    lintKind := r.kind,
    lintKindPretty := r.pretty,
    category := r.category,
    problemText := jsSlice text (ruleSpan r m).1 (ruleSpan r m).2,
    suggestions := suggs.map (fun t => ⟨t, str "ReplaceWith"⟩) }

def execLoop (r : CustomRule) (text : Str) : Nat → Nat → AccSt →
    Except Unit AccSt
  | 0, _, st => .ok st
  | fuel + 1, li, st =>
    match r.exec text li with
    | none => .ok st
    | some m =>
      if overlapsAnyB st.occupied (ruleSpan r m).1 (ruleSpan r m).2 then
        execLoop r text fuel (m.index + m.matched.length) st
      else
        match r.message m with
        | .error err => .error err
        | .ok msg =>
          match r.suggest m with
          | .error err => .error err
          | .ok suggs =>
            execLoop r text fuel (m.index + m.matched.length)
              { occupied := st.occupied ++ [ruleSpan r m],
                results := st.results ++ [ruleLint r text m msg suggs] }

/-- The `for (const rule of RULES)` loop: skip disabled rules, evaluate
the rest with a fresh matcher; a thrown callback propagates. -/
def runRules (text : Str) : List CustomRule → AccSt → Except Unit AccSt
  | [], st => .ok st
  | r :: rs, st =>
    if r.enabled = false then runRules text rs st
    else
      match execLoop r text (text.length + 1) 0 st with
      | .error e => .error e
      | .ok st' => runRules text rs st'

/-- The initial accumulator of a pass: the occupied list built from the
spans of the existing (engine) lints. -/
def initAcc (existingLints : List Lint) : AccSt :=
  { occupied := SpansOf existingLints, results := [] }

/-- `runCustomRules(text, existingLints)` from
src/background/custom-rules.js: the pattern rules followed by both run-on
clause scans, all sharing one occupied list. -/
def runCustomRules (rules : List CustomRule) (text : Str)
    (existingLints : List Lint) : Except Unit (List Lint) :=
  match runRules text rules (initAcc existingLints) with
  | .error e => .error e
  | .ok st =>
    let runOn := detectRunOnClauses text st.occupied
    .ok (st.results ++ runOn.1)


/-! ### Predicates and demonstration values used by the theorems below -/

/-- The node-map entries tile the flat text contiguously from offset `n`,
and every synthetic entry holds exactly the boundary newline. -/
def tilesB : Nat → List MapEntry → Bool
  | _, [] => true
  | n, e :: es =>
    decide (e.start = n) && decide (e.endPos = n + e.content.length) &&
    (!e.synthetic || e.content == ['\n']) && tilesB e.endPos es

/-- Two spans do not overlap under the half-open semantics of the source's
`overlaps` check. -/
def noOv (p q : Nat × Nat) : Prop := ¬(p.1 < q.2 ∧ q.1 < p.2)

/-- Each span of the second list does not overlap the occupied spans, nor
any span accepted before it (the acceptance discipline of one pass). -/
def StepOK : List (Nat × Nat) → List (Nat × Nat) → Prop
  | _, [] => True
  | occ, c :: cs => (∀ q ∈ occ, noOv c q) ∧ StepOK (occ ++ [c]) cs

/-- An evaluation phase extends the accumulator by newly accepted lints
whose spans are appended to the occupied list in lockstep and respect the
acceptance discipline. -/
def ExtOK (st st' : AccSt) : Prop :=
  ∃ new, st'.results = st.results ++ new ∧
    st'.occupied = st.occupied ++ SpansOf new ∧
    StepOK st.occupied (SpansOf new)

/-- The same extension property for the run-on scans, which thread the
occupied list and result list separately. -/
def ScanOK (occ : List (Nat × Nat)) (res : List Lint)
    (out : List Lint × List (Nat × Nat)) : Prop :=
  ∃ new, out.1 = res ++ new ∧ out.2 = occ ++ SpansOf new ∧
    StepOK occ (SpansOf new)

/-- Overwrite the `lastIndex` fields of a rule table with given residual
matcher positions (whatever previous passes might have left on the JS
`RegExp` objects held in the table). -/
def setLastIndexes : List CustomRule → List Nat → List CustomRule
  | [], _ => []
  | rs, [] => rs
  | r :: rs, l :: ls => { r with lastIndex := l } :: setLastIndexes rs ls

/-- A Harper lint for the misspelling "writting" whose engine suggestions
are the bad split `["writ", "ting"]`. -/
def writtingLintDemo : Lint :=
  { span := ⟨0, 8⟩,
    message := str "Possible misspelling.",
    lintKind := str "Spelling",
    lintKindPretty := str "Spelling",
    category := str "spelling",
    problemText := str "writting",
    suggestions := [⟨str "writ", str "ReplaceWith"⟩, ⟨str "ting", str "ReplaceWith"⟩] }

/-- The same engine lint with an all-caps problem text. -/
def capsWrittingLintDemo : Lint :=
  { writtingLintDemo with problemText := str "WRITTING" }

/-- An AI-sourced correction used in the stale-result scenarios. -/
def aiLintDemo : Lint :=
  { span := ⟨3, 7⟩,
    message := str "Subject-verb agreement.",
    lintKind := str "Grammar",
    lintKindPretty := str "Grammar",
    category := str "grammar",
    problemText := str "like",
    suggestions := [⟨str "likes", str "ReplaceWith"⟩] }

/-- Text for the rule-table demonstrations ("zzz" and "qqq" match no
run-on scan). -/
def ruleTextDemo : Str := str "zzz qqq"

/-- A malformed rule: its pattern matches `"zzz"` at the start of the
text and its `message` callback throws. -/
def badRuleDemo : CustomRule :=
  { enabled := true,
    lastIndex := 0,
    exec := fun _ li =>
      if li = 0 then some { index := 0, matched := str "zzz", groups := [] } else none,
    matchIdx := 0,
    message := fun _ => .error (),
    suggest := fun _ => .ok [],
    kind := str "Grammar",
    pretty := str "Bad Rule",
    category := str "grammar" }

/-- A well-formed rule: its pattern matches `"qqq"` at offset 4 and its
callbacks are total. -/
def goodRuleDemo : CustomRule :=
  { enabled := true,
    lastIndex := 0,
    exec := fun _ li =>
      if li ≤ 4 then some { index := 4, matched := str "qqq", groups := [] } else none,
    matchIdx := 0,
    message := fun _ => .ok (str "Replace qqq."),
    suggest := fun _ => .ok [str "ppp"],
    kind := str "Style",
    pretty := str "Good Rule",
    category := str "style" }

/-- The lint that `goodRuleDemo` produces on `ruleTextDemo`. -/
def goodRuleLintDemo : Lint :=
  { span := ⟨4, 7⟩,
    message := str "Replace qqq.",
    lintKind := str "Style",
    lintKindPretty := str "Good Rule",
    category := str "style",
    problemText := str "qqq",
    suggestions := [⟨str "ppp", str "ReplaceWith"⟩] }

/-- An engine (Harper) lint occupying `[0, 3)` of `ruleTextDemo`. -/
def engineLintDemo : Lint :=
  { span := ⟨0, 3⟩,
    message := str "Engine lint.",
    lintKind := str "Spelling",
    lintKindPretty := str "Spelling",
    category := str "spelling",
    problemText := str "zzz",
    suggestions := [] }

/-- The lint produced by the imperative run-on scan on
`"a day keep an eye"`. -/
def dayKeepAnLintDemo : Lint :=
  { span := ⟨2, 13⟩,
    message := str "Possible run-on sentence. Add a comma or period before \"keep\".",
    lintKind := str "Punctuation",
    lintKindPretty := str "Run-on Sentence",
    category := str "grammar",
    problemText := str "day keep an",
    suggestions := [⟨str "day, keep an", str "ReplaceWith"⟩,
                    ⟨str "day. Keep an", str "ReplaceWith"⟩] }

/-- A trivial external DOM edit (used only to instantiate theorems whose
statements hold for every edit implementation). -/
def demoEdit : DomEdit := fun tree _ _ _ => tree

/-- A two-block demonstration tree: a paragraph, an opaque custom
element, and another paragraph. -/
def demoTree : DomNode :=
  .elem "DIV" []
    [.elem "P" [] [.text (str "hello worlde")],
     .elem "X-OPAQUE-WIDGET" [] [.text (str "mid")],
     .elem "P" [] [.text (str "more text")]]

/-- A fixable demonstration lint confined to the first paragraph of
`demoTree`. -/
def demoLintA : Lint :=
  { span := ⟨6, 12⟩,
    message := str "Possible misspelling.",
    lintKind := str "Spelling",
    lintKindPretty := str "Spelling",
    category := str "spelling",
    problemText := str "worlde",
    suggestions := [⟨str "world", str "ReplaceWith"⟩] }

/-- A demonstration lint straddling the synthetic boundary in front of
the custom element of `demoTree`. -/
def demoLintB : Lint :=
  { span := ⟨10, 15⟩,
    message := str "Crosses a block boundary.",
    lintKind := str "Grammar",
    lintKindPretty := str "Grammar",
    category := str "grammar",
    problemText := str "de\nmi",
    suggestions := [⟨str "x", str "ReplaceWith"⟩] }

/-- The tracked state for `demoTree`: its snapshot text and the two
demonstration lints. -/
def demoCEState : CEState :=
  { lints := [demoLintA, demoLintB],
    text := (buildTextMap demoTree).1 }

/-- The fix record that `applyAllFixes` builds for `demoLintA`. -/
def demoFixItem : FixItem := mkFixItem demoCEState demoLintA


/-! ## Theorems -/

/-- C10: an empty or too-short input makes `LinterClient.lint` return an
empty lint list immediately: the memo cache is returned unchanged (so the
input is never inserted), no request is sent to the background engine,
and the result does not depend on the cache or on the engine at all. -/
theorem linterClient_short_input_short_circuits
    (cache : List (Str × List Lint)) (text : Str)
    (send : Except Unit (Option (List Lint)))
    (h : text = [] ∨ (jsTrim text).length < 2) :
    linterClientLint cache text send =
      { lints := [], cache := cache, sentRequest := false } := by
  unfold linterClientLint
  rw [if_pos h]

/-- Witness for C10 at the concrete input `" a "` (trimmed length 1) with
a nonempty cache. -/
theorem linterClient_short_input_short_circuits_witness :
    ((str " a ") = ([] : Str) ∨ (jsTrim (str " a ")).length < 2) ∧
    linterClientLint [(str "hello there", [])] (str " a ") (.ok none) =
      { lints := [], cache := [(str "hello there", [])], sentRequest := false } :=
  ⟨by decide,
   linterClient_short_input_short_circuits [(str "hello there", [])]
     (str " a ") (.ok none) (by decide)⟩

/-- C3 (counterexample): the claim says the single replacement suggestion
is case-matched to the original problem text, an all-caps problem
yielding an all-caps suggestion.  On the all-caps problem `"WRITTING"`
the post-processing yields the lowercase suggestion `"writing"`, not the
case-matched `"WRITING"` that `matchCase` would produce (the
known-misspelling branch never calls `matchCase`). -/
theorem fixHarper_all_caps_problem_not_case_matched :
    (fixHarperSuggestions [capsWrittingLintDemo]).map (fun l => l.suggestions) =
      [[⟨str "writing", str "ReplaceWith"⟩]] ∧
    matchCase (str "writing") capsWrittingLintDemo.problemText = str "WRITING" ∧
    (str "writing" : Str) ≠ str "WRITING" := by
  decide

/-- C3 (amended): a known-misspelling hit replaces the whole suggestion
list with exactly one suggestion holding the canonical correction
verbatim (no case matching); in particular `"writting"` with engine
suggestions `["writ", "ting"]` yields exactly `["writing"]`.  The
trailing filter of `fixHarperSuggestions` keeps every lint, so the pass
is the per-lint mutation mapped over the list. -/
theorem fixHarper_known_misspelling_overrides_suggestions :
    (∀ lints, fixHarperSuggestions lints = lints.map fixLint) ∧
    (∀ (l : Lint) (fix : Str),
      lookupMiss (toLowerStr l.problemText) = some fix →
      (fixLint l).suggestions = [⟨fix, str "ReplaceWith"⟩] ∧
      (fixLint l).message = str "Did you mean \"" ++ fix ++ str "\"?") ∧
    (fixHarperSuggestions [writtingLintDemo]).map (fun l => l.suggestions) =
      [[⟨str "writing", str "ReplaceWith"⟩]] := by
  refine ⟨?_, ?_, by decide⟩
  · intro lints
    unfold fixHarperSuggestions
    simp
  · intro l fix h
    have hne : ¬ toLowerStr l.problemText = [] := by
      intro h0
      rw [h0] at h
      have : lookupMiss [] = (none : Option Str) := by decide
      rw [this] at h
      exact Option.noConfusion h
    unfold fixLint
    rw [if_neg hne, h]
    exact ⟨rfl, rfl⟩

/-- Witness for C3's amended theorem at the lowercase scenario input. -/
theorem fixHarper_known_misspelling_overrides_suggestions_witness :
    lookupMiss (toLowerStr writtingLintDemo.problemText) = some (str "writing") ∧
    (fixLint writtingLintDemo).suggestions = [⟨str "writing", str "ReplaceWith"⟩] ∧
    (fixLint writtingLintDemo).message = str "Did you mean \"" ++ str "writing" ++ str "\"?" :=
  ⟨by decide,
   fixHarper_known_misspelling_overrides_suggestions.2.1 writtingLintDemo
     (str "writing") (by decide)⟩

/-- C5 (counterexample): the claim says an AI result arriving after the
text has changed (string inequality) is discarded with no AI lints
merged into the stored list.  `requestAIProofread` performs no staleness
comparison: with current text `"he likes it!"` differing from the
request text `"he like it"`, the AI correction is still merged and
stored for the tab. -/
theorem requestAIProofread_stale_result_still_stored :
    str "he likes it!" ≠ str "he like it" ∧
    (requestAIProofread (str "he like it") (some 1) []
        (some ⟨true, [aiLintDemo]⟩) []).1 = [(1, [aiLintDemo])] := by
  decide

/-- C5 (amended): the AI result is merged into the stored per-tab lint
list whenever it is available and at least one correction survives the
span-overlap filter against the existing lints — no comparison with the
current text is made, so a stale result is stored all the same, and the
`'ai-lints-update'` message carries the merged list. -/
theorem requestAIProofread_merges_without_staleness_check
    (text : Str) (tid : Nat) (existing : List Lint) (r : AIProofreadResult)
    (store : List (Nat × List Lint))
    (hav : r.available = true)
    (hne : aiNonOverlapping existing r.corrections ≠ []) :
    (requestAIProofread text (some tid) existing (some r) store).1 =
      setTab store tid (sortAscByStart (existing ++ aiNonOverlapping existing r.corrections)) ∧
    (requestAIProofread text (some tid) existing (some r) store).2 =
      some (sortAscByStart (existing ++ aiNonOverlapping existing r.corrections), text) := by
  have hlen : r.corrections.length ≠ 0 := by
    intro h0
    apply hne
    have hc : r.corrections = [] := List.length_eq_zero.mp h0
    rw [hc]
    rfl
  have hfiltlen : (aiNonOverlapping existing r.corrections).length ≠ 0 := by
    intro h0
    exact hne (List.length_eq_zero.mp h0)
  have hcond : ¬ (r.available = false ∨ r.corrections.length = 0) := by
    simp [hav, hlen]
  constructor
  · simp only [requestAIProofread]
    rw [if_neg hcond, if_neg hfiltlen]
  · simp only [requestAIProofread]
    rw [if_neg hcond, if_neg hfiltlen]

/-- Witness for C5's amended theorem at a concrete stale scenario. -/
theorem requestAIProofread_merges_without_staleness_check_witness :
    (⟨true, [aiLintDemo]⟩ : AIProofreadResult).available = true ∧
    aiNonOverlapping [] (⟨true, [aiLintDemo]⟩ : AIProofreadResult).corrections ≠ [] ∧
    ((requestAIProofread (str "he like it") (some 1) []
        (some ⟨true, [aiLintDemo]⟩) []).1 =
      setTab [] 1 (sortAscByStart ([] ++ aiNonOverlapping [] [aiLintDemo])) ∧
     (requestAIProofread (str "he like it") (some 1) []
        (some ⟨true, [aiLintDemo]⟩) []).2 =
      some (sortAscByStart ([] ++ aiNonOverlapping [] [aiLintDemo]), str "he like it")) :=
  ⟨rfl, by decide,
   requestAIProofread_merges_without_staleness_check (str "he like it") 1 []
     ⟨true, [aiLintDemo]⟩ [] rfl (by decide)⟩

/-- C9: on `"a day keep an eye"` with an empty occupied set the clause
boundary detector produces exactly one lint, spanning exactly
`"day keep an"` (offsets 2 to 13), whose first suggestion is the
comma-insert replacement `"day, keep an"`; applying that suggestion to
the span yields `"a day, keep an eye"`. -/
theorem detectRunOn_day_keep_an_eye :
    detectRunOnClauses (str "a day keep an eye") [] =
      ([dayKeepAnLintDemo], [(2, 13)]) ∧
    dayKeepAnLintDemo.problemText = str "day keep an" ∧
    dayKeepAnLintDemo.span = ⟨2, 13⟩ ∧
    (dayKeepAnLintDemo.suggestions.headD ⟨[], []⟩).text = str "day, keep an" ∧
    jsSlice (str "a day keep an eye") 0 2 ++ str "day, keep an" ++
      jsSlice (str "a day keep an eye") 13 17 = str "a day, keep an eye" := by
  decide


/-- C1: when the walk of `buildTextMap` reaches a container node whose
tag is not on the inline allow-list (and which is not a `<br>` or the
extension's own overlay container), and the walk is not at the very
start, and the previous segment is not already a synthetic newline, it
pushes a synthetic `'\n'` boundary entry before walking the container's
children — so the flattened text gains a `'\n'` separating the preceding
text from the container's content. -/
theorem walk_unknown_container_inserts_boundary
    (tag : String) (classes : List String) (children : List DomNode)
    (st : WalkSt) (path : List Nat)
    (h1 : inlineTags.contains tag = false)
    (h2 : tag ≠ "BR")
    (h3 : classes.contains overlayClass = false)
    (h4 : 0 < st.offset)
    (h5 : prevIsNewlineB st.entries = false) :
    walkNode st path (.elem tag classes children) =
      walkChildren (pushNewline st) path 0 children ∧
    textOfEntries (pushNewline st).entries = textOfEntries st.entries ++ ['\n'] := by
  constructor
  · simp only [walkNode]
    rw [if_neg (fun hc => Bool.false_ne_true (h3 ▸ hc)), if_neg h2,
        if_pos ⟨h1, h4, h5⟩]
  · simp [pushNewline, textOfEntries]

/-- Witness for C1: a concrete opaque custom element reached after the
word "hello"; the flattened prefix becomes `"hello\n"`, so "hello" and
the container's first word are not concatenated. -/
theorem walk_unknown_container_inserts_boundary_witness :
    (inlineTags.contains "X-OPAQUE-WIDGET" = false ∧
     "X-OPAQUE-WIDGET" ≠ "BR" ∧
     ([] : List String).contains overlayClass = false ∧
     0 < (WalkSt.mk [⟨some [0], str "hello", 0, 5, false⟩] 5).offset ∧
     prevIsNewlineB (WalkSt.mk [⟨some [0], str "hello", 0, 5, false⟩] 5).entries = false) ∧
    (walkNode (WalkSt.mk [⟨some [0], str "hello", 0, 5, false⟩] 5) [1]
        (.elem "X-OPAQUE-WIDGET" [] [.text (str "world")]) =
      walkChildren (pushNewline (WalkSt.mk [⟨some [0], str "hello", 0, 5, false⟩] 5)) [1] 0
        [.text (str "world")] ∧
     textOfEntries (pushNewline (WalkSt.mk [⟨some [0], str "hello", 0, 5, false⟩] 5)).entries =
       textOfEntries (WalkSt.mk [⟨some [0], str "hello", 0, 5, false⟩] 5).entries ++ ['\n']) :=
  ⟨⟨by decide, by decide, by decide, by decide, by decide⟩,
   walk_unknown_container_inserts_boundary "X-OPAQUE-WIDGET" [] [.text (str "world")]
     (WalkSt.mk [⟨some [0], str "hello", 0, 5, false⟩] 5) [1]
     (by decide) (by decide) (by decide) (by decide) (by decide)⟩


/-- Splitting a rule-table evaluation at an append: the second part runs
only if the first part did not throw. -/
theorem runRules_append (text : Str) (xs ys : List CustomRule) (st : AccSt) :
    runRules text (xs ++ ys) st =
      match runRules text xs st with
      | .error e => .error e
      | .ok st' => runRules text ys st' := by
  induction xs generalizing st with
  | nil => rfl
  | cons r rs ih =>
    simp only [List.cons_append, List.append_eq, runRules]
    by_cases hEn : r.enabled = false
    · rw [if_pos hEn, if_pos hEn, ih]
    · rw [if_neg hEn, if_neg hEn]
      cases execLoop r text (text.length + 1) 0 st with
      | error e => rfl
      | ok st' => exact ih st'

/-- C4 (counterexample): the claim says a malformed rule is skipped and
the other rules still produce their lints.  With the throwing
`badRuleDemo` first in the table, the whole pass aborts with the thrown
error — while the same pass without the bad rule shows that
`goodRuleDemo` would have produced its lint. -/
theorem runCustomRules_bad_rule_aborts_whole_pass :
    runCustomRules [badRuleDemo, goodRuleDemo] ruleTextDemo [] = .error () ∧
    runCustomRules [goodRuleDemo] ruleTextDemo [] = .ok [goodRuleLintDemo] :=
  ⟨rfl, rfl⟩

/-- C4 (amended): `runCustomRules` has no per-rule catch: if an enabled
rule's callback throws while the rules before it evaluated cleanly, the
exception propagates out of the whole pass and no lints at all are
returned (the caller in `handleMessage` catches it and degrades the pass
to an empty lint list); the rules after the malformed one never run. -/
theorem runCustomRules_throwing_callback_aborts_pass
    (rs1 : List CustomRule) (bad : CustomRule) (rs2 : List CustomRule)
    (text : Str) (existing : List Lint) (st1 : AccSt) (e : Unit)
    (h1 : runRules text rs1 (initAcc existing) = .ok st1)
    (h2 : bad.enabled = true)
    (h3 : execLoop bad text (text.length + 1) 0 st1 = .error e) :
    runCustomRules (rs1 ++ bad :: rs2) text existing = .error e := by
  unfold runCustomRules
  rw [runRules_append, h1]
  simp only [runRules]
  rw [if_neg (by simp [h2]), h3]

/-- Witness for C4's amended theorem at the concrete table
`[badRuleDemo, goodRuleDemo]`. -/
theorem runCustomRules_throwing_callback_aborts_pass_witness :
    runRules ruleTextDemo [] (initAcc []) = .ok (initAcc []) ∧
    badRuleDemo.enabled = true ∧
    execLoop badRuleDemo ruleTextDemo (ruleTextDemo.length + 1) 0 (initAcc []) = .error () ∧
    runCustomRules ([] ++ badRuleDemo :: [goodRuleDemo]) ruleTextDemo [] = .error () :=
  ⟨rfl, rfl, rfl,
   runCustomRules_throwing_callback_aborts_pass [] badRuleDemo [goodRuleDemo]
     ruleTextDemo [] (initAcc []) () rfl rfl rfl⟩

/-- The accepted span of a match does not depend on the matcher-state
field. -/
theorem ruleSpan_ignores_lastIndex (r : CustomRule) (l : Nat) (m : MatchRes) :
    ruleSpan { r with lastIndex := l } m = ruleSpan r m := rfl

/-- The pushed lint record does not depend on the matcher-state field. -/
theorem ruleLint_ignores_lastIndex (r : CustomRule) (l : Nat) (text : Str)
    (m : MatchRes) (msg : Str) (suggs : List Str) :
    ruleLint { r with lastIndex := l } text m msg suggs =
      ruleLint r text m msg suggs := rfl

/-- Evaluating a rule ignores the `lastIndex` field stored on the table's
`RegExp` object, because a fresh copy with `lastIndex = 0` is compiled
per pass. -/
theorem execLoop_ignores_lastIndex (r : CustomRule) (l : Nat) (text : Str) :
    ∀ (fuel li : Nat) (st : AccSt),
      execLoop { r with lastIndex := l } text fuel li st =
        execLoop r text fuel li st := by
  intro fuel
  induction fuel with
  | zero => intro li st; rfl
  | succ n ih =>
    intro li st
    simp only [execLoop, ih, ruleSpan_ignores_lastIndex, ruleLint_ignores_lastIndex]

/-- The rule-table fold is unchanged by overwriting residual `lastIndex`
state. -/
theorem runRules_ignores_lastIndexes (text : Str) :
    ∀ (rules : List CustomRule) (ls : List Nat) (st : AccSt),
      runRules text (setLastIndexes rules ls) st = runRules text rules st := by
  intro rules
  induction rules with
  | nil => intro ls st; cases ls <;> rfl
  | cons r rs ih =>
    intro ls st
    cases ls with
    | nil => rfl
    | cons l ls' =>
      simp only [setLastIndexes, runRules, execLoop_ignores_lastIndex, ih]

/-- C8: one evaluation pass of the rule engine is a pure function of the
rule table's patterns and callbacks, the text, and the occupied set; the
only state a pass could leave behind on the table (the `lastIndex`
position of a table-held `RegExp` object) is never read, because
`runCustomRules` compiles a fresh matcher per pass.  Hence running the
engine twice on the same text with an empty occupied set — with any
residual matcher positions `ls` in between — yields identical lint
lists, spans, messages and suggestions in the same order. -/
theorem runCustomRules_repeat_evaluation_identical
    (rules : List CustomRule) (ls ls' : List Nat) (text : Str) :
    runCustomRules (setLastIndexes rules ls) text [] =
      runCustomRules (setLastIndexes rules ls') text [] := by
  unfold runCustomRules
  rw [runRules_ignores_lastIndexes, runRules_ignores_lastIndexes]


/-- Non-overlap of spans is symmetric. -/
theorem noOv_symm {p q : Nat × Nat} (h : noOv p q) : noOv q p :=
  fun hc => h ⟨hc.2, hc.1⟩

/-- `SpansOf` distributes over append. -/
theorem spansOf_append (a b : List Lint) :
    SpansOf (a ++ b) = SpansOf a ++ SpansOf b := List.map_append _ a b

/-- A failed `occupied.some(...)` check means the candidate overlaps no
occupied span. -/
theorem overlapsAnyB_eq_false {occ : List (Nat × Nat)} {s e : Nat}
    (h : overlapsAnyB occ s e = false) : ∀ q ∈ occ, noOv (s, e) q := by
  intro q hq
  unfold overlapsAnyB at h
  rw [List.any_eq_false] at h
  have hx := h q hq
  simp only [spansOverlapB, Bool.and_eq_true, decide_eq_true_eq] at hx
  intro hc
  exact hx ⟨hc.1, hc.2⟩

/-- `StepOK` splits across an append of accepted spans. -/
theorem stepOK_append : ∀ (xs ys occ : List (Nat × Nat)),
    StepOK occ (xs ++ ys) ↔ StepOK occ xs ∧ StepOK (occ ++ xs) ys := by
  intro xs
  induction xs with
  | nil => intro ys occ; simp [StepOK]
  | cons x xs ih =>
    intro ys occ
    simp only [List.cons_append, List.append_eq, StepOK, ih, List.append_assoc,
      List.singleton_append, List.nil_append, and_assoc]

/-- `StepOK` yields the pass invariant: accepted spans are pairwise
non-overlapping and none overlaps the initially occupied spans. -/
theorem stepOK_disjoint : ∀ (cs occ : List (Nat × Nat)), StepOK occ cs →
    List.Pairwise noOv cs ∧ ∀ c ∈ cs, ∀ q ∈ occ, noOv c q := by
  intro cs
  induction cs with
  | nil => intro occ _; exact ⟨List.Pairwise.nil, by intro c hc; cases hc⟩
  | cons c cs ih =>
    intro occ h
    obtain ⟨hc, hrest⟩ := h
    obtain ⟨hpw, hinit⟩ := ih (occ ++ [c]) hrest
    refine ⟨List.Pairwise.cons ?_ hpw, ?_⟩
    · intro d hd
      exact noOv_symm (hinit d hd c (by simp))
    · intro d hd q hq
      rcases hd with _ | hd
      · exact hc q hq
      · exact hinit d (by assumption) q (by simp [hq])

/-- `ExtOK` is reflexive. -/
theorem extOK_refl (st : AccSt) : ExtOK st st :=
  ⟨[], by simp [SpansOf, StepOK]⟩

/-- `ExtOK` composes. -/
theorem extOK_trans {a b c : AccSt} (h1 : ExtOK a b) (h2 : ExtOK b c) :
    ExtOK a c := by
  obtain ⟨n1, h1r, h1o, h1s⟩ := h1
  obtain ⟨n2, h2r, h2o, h2s⟩ := h2
  refine ⟨n1 ++ n2, ?_, ?_, ?_⟩
  · rw [h2r, h1r, List.append_assoc]
  · rw [h2o, h1o, spansOf_append, List.append_assoc]
  · rw [spansOf_append, stepOK_append]
    exact ⟨h1s, h1o ▸ h2s⟩

/-- Accepting one candidate that passed the overlap check preserves the
extension property. -/
theorem extOK_push (st : AccSt) (sp : Nat × Nat) (lint : Lint)
    (hsp : (lint.span.start, lint.span.endPos) = sp)
    (hov : overlapsAnyB st.occupied sp.1 sp.2 = false) :
    ExtOK st ⟨st.occupied ++ [sp], st.results ++ [lint]⟩ := by
  refine ⟨[lint], rfl, ?_, ?_⟩
  · simp [SpansOf, hsp]
  · simp only [SpansOf, List.map_cons, List.map_nil, hsp, StepOK, and_true]
    exact overlapsAnyB_eq_false hov

/-- The span recorded in the lint pushed by `execLoop` is the accepted
span. -/
theorem ruleLint_span (r : CustomRule) (text : Str) (m : MatchRes)
    (msg : Str) (suggs : List Str) :
    ((ruleLint r text m msg suggs).span.start,
     (ruleLint r text m msg suggs).span.endPos) = ruleSpan r m := rfl

/-- The per-rule `exec` loop only extends the accumulator with candidates
that passed the overlap check. -/
theorem execLoop_extOK (r : CustomRule) (text : Str) :
    ∀ (fuel li : Nat) (st st' : AccSt),
      execLoop r text fuel li st = .ok st' → ExtOK st st' := by
  intro fuel
  induction fuel with
  | zero => intro li st st' h; cases h; exact extOK_refl _
  | succ n ih =>
    intro li st st' h
    rw [execLoop] at h
    split at h
    next => cases h; exact extOK_refl _
    next m heq =>
      split at h
      next hov => exact ih _ _ _ h
      next hov =>
        split at h
        next => cases h
        next msg hmsg =>
          split at h
          next => cases h
          next suggs hsug =>
            exact extOK_trans
              (extOK_push st (ruleSpan r m) (ruleLint r text m msg suggs)
                (ruleLint_span r text m msg suggs)
                (Bool.eq_false_iff.mpr hov))
              (ih _ _ _ h)

/-- The rule-table fold only extends the accumulator with candidates that
passed the overlap check. -/
theorem runRules_extOK (text : Str) :
    ∀ (rules : List CustomRule) (st st' : AccSt),
      runRules text rules st = .ok st' → ExtOK st st' := by
  intro rules
  induction rules with
  | nil => intro st st' h; cases h; exact extOK_refl _
  | cons r rs ih =>
    intro st st' h
    rw [runRules] at h
    split at h
    · exact ih _ _ h
    · split at h
      next => cases h
      next st1 hx =>
        exact extOK_trans (execLoop_extOK r text _ 0 st st1 hx) (ih _ _ h)

/-- Accepting one candidate preserves the scan extension property. -/
theorem scanOK_push {occ : List (Nat × Nat)} {res : List Lint}
    {sp : Nat × Nat} {lint : Lint} {out : List Lint × List (Nat × Nat)}
    (hsp : (lint.span.start, lint.span.endPos) = sp)
    (hov : overlapsAnyB occ sp.1 sp.2 = false)
    (h : ScanOK (occ ++ [sp]) (res ++ [lint]) out) : ScanOK occ res out := by
  obtain ⟨new, hr, ho, hs⟩ := h
  refine ⟨lint :: new, ?_, ?_, ?_⟩
  · rw [hr, List.append_assoc, List.singleton_append]
  · rw [ho]
    simp [SpansOf, hsp, List.append_assoc]
  · simp only [SpansOf, List.map_cons, hsp, StepOK]
    exact ⟨overlapsAnyB_eq_false hov, hs⟩

/-- The empty scan extension. -/
theorem scanOK_refl (occ : List (Nat × Nat)) (res : List Lint) :
    ScanOK occ res (res, occ) :=
  ⟨[], by simp [SpansOf, StepOK]⟩

/-- The independent-clause scan only extends the accumulator with
candidates that passed its checks, including the overlap check. -/
theorem runOnScan1_scanOK (text : Str) :
    ∀ (fuel li : Nat) (occ : List (Nat × Nat)) (res : List Lint),
      ScanOK occ res (runOnScan1 text fuel li occ res) := by
  intro fuel
  induction fuel with
  | zero => intro li occ res; exact scanOK_refl occ res
  | succ n ih =>
    intro li occ res
    rw [runOnScan1]
    split
    next => exact scanOK_refl occ res
    next m =>
      split
      next => exact ih _ _ _
      next =>
        split
        next => exact ih _ _ _
        next =>
          split
          next => exact ih _ _ _
          next hov =>
            exact scanOK_push rfl (Bool.eq_false_iff.mpr hov) (ih _ _ _)

/-- The imperative-clause scan only extends the accumulator with
candidates that passed its checks, including the overlap check. -/
theorem runOnScan2_scanOK (text : Str) :
    ∀ (fuel li : Nat) (occ : List (Nat × Nat)) (res : List Lint),
      ScanOK occ res (runOnScan2 text fuel li occ res) := by
  intro fuel
  induction fuel with
  | zero => intro li occ res; exact scanOK_refl occ res
  | succ n ih =>
    intro li occ res
    rw [runOnScan2]
    split
    next => exact scanOK_refl occ res
    next m =>
      split
      next => exact ih _ _ _
      next =>
        split
        next => exact ih _ _ _
        next =>
          split
          next => exact ih _ _ _
          next =>
            split
            next => exact ih _ _ _
            next hov =>
              exact scanOK_push rfl (Bool.eq_false_iff.mpr hov) (ih _ _ _)

/-- `ScanOK` composes across the two scans. -/
theorem scanOK_trans {occ : List (Nat × Nat)} {res : List Lint}
    {mid out : List Lint × List (Nat × Nat)}
    (h1 : ScanOK occ res mid) (h2 : ScanOK mid.2 mid.1 out) :
    ScanOK occ res out := by
  obtain ⟨n1, h1r, h1o, h1s⟩ := h1
  obtain ⟨n2, h2r, h2o, h2s⟩ := h2
  refine ⟨n1 ++ n2, ?_, ?_, ?_⟩
  · rw [h2r, h1r, List.append_assoc]
  · rw [h2o, h1o, spansOf_append, List.append_assoc]
  · rw [spansOf_append, stepOK_append]
    exact ⟨h1s, h1o ▸ h2s⟩

/-- `detectRunOnClauses` only extends the occupied list with its own
accepted spans, which respect the acceptance discipline. -/
theorem detectRunOnClauses_scanOK (text : Str) (occ : List (Nat × Nat)) :
    ScanOK occ [] (detectRunOnClauses text occ) := by
  unfold detectRunOnClauses
  exact scanOK_trans (runOnScan1_scanOK text (text.length + 1) 0 occ [])
    (runOnScan2_scanOK text (text.length + 1) 0 _ _)

/-- C2: for every rule table, text, and externally supplied engine lints
used as the initial occupied set, the lints of one `runCustomRules` pass
(pattern rules plus both run-on clause scans) have pairwise
non-overlapping spans under half-open semantics, and none of them
overlaps any supplied engine span. -/
theorem runCustomRules_pass_spans_disjoint
    (rules : List CustomRule) (text : Str) (existing : List Lint)
    (lints : List Lint)
    (h : runCustomRules rules text existing = .ok lints) :
    List.Pairwise noOv (SpansOf lints) ∧
    ∀ p ∈ SpansOf lints, ∀ q ∈ SpansOf existing, noOv p q := by
  unfold runCustomRules at h
  split at h
  next => cases h
  next st hx =>
    injection h with h'
    obtain ⟨n1, h1r, h1o, h1s⟩ := runRules_extOK text rules (initAcc existing) st hx
    obtain ⟨n2, h2r, h2o, h2s⟩ := detectRunOnClauses_scanOK text st.occupied
    have hlints : lints = n1 ++ n2 := by
      rw [← h', h1r, h2r]
      simp [initAcc]
    have hocc : st.occupied = SpansOf existing ++ SpansOf n1 := h1o
    have hstep : StepOK (SpansOf existing) (SpansOf lints) := by
      rw [hlints, spansOf_append, stepOK_append]
      exact ⟨h1s, hocc ▸ h2s⟩
    exact stepOK_disjoint (SpansOf lints) (SpansOf existing) hstep

/-- Witness for C2: the demonstration rule accepts `[4, 7)` next to an
engine lint occupying `[0, 3)`; the produced lint list is disjoint and
clear of the engine span. -/
theorem runCustomRules_pass_spans_disjoint_witness :
    runCustomRules [goodRuleDemo] ruleTextDemo [engineLintDemo] =
      .ok [goodRuleLintDemo] ∧
    (List.Pairwise noOv (SpansOf [goodRuleLintDemo]) ∧
     ∀ p ∈ SpansOf [goodRuleLintDemo], ∀ q ∈ SpansOf [engineLintDemo], noOv p q) :=
  ⟨rfl,
   runCustomRules_pass_spans_disjoint [goodRuleDemo] ruleTextDemo
     [engineLintDemo] [goodRuleLintDemo] rfl⟩


/-- `textOfEntries` distributes over appending one entry. -/
theorem textOfEntries_append (es : List MapEntry) (e : MapEntry) :
    textOfEntries (es ++ [e]) = textOfEntries es ++ e.content := by
  simp [textOfEntries]

/-- The synthetic-newline conjunct of `tilesB`, from its propositional
form. -/
theorem synthOK_of (e : MapEntry) (h : e.synthetic = true → e.content = ['\n']) :
    (!e.synthetic || e.content == ['\n']) = true := by
  cases hs : e.synthetic
  · simp
  · simp [h hs]

/-- Appending a correctly placed entry preserves the tiling invariant. -/
theorem tilesB_snoc : ∀ (es : List MapEntry) (n : Nat) (e : MapEntry),
    tilesB n es = true →
    e.start = n + (textOfEntries es).length →
    e.endPos = e.start + e.content.length →
    (e.synthetic = true → e.content = ['\n']) →
    tilesB n (es ++ [e]) = true := by
  intro es
  induction es with
  | nil =>
    intro n e _ h1 h2 h3
    simp only [List.nil_append, tilesB, Bool.and_eq_true, decide_eq_true_eq]
    refine ⟨⟨⟨?_, ?_⟩, synthOK_of e h3⟩, trivial⟩
    · simpa [textOfEntries] using h1
    · have : e.start = n := by simpa [textOfEntries] using h1
      omega
  | cons f es ih =>
    intro n e h h1 h2 h3
    simp only [tilesB, Bool.and_eq_true, decide_eq_true_eq] at h
    obtain ⟨⟨⟨hf1, hf2⟩, hf3⟩, hrest⟩ := h
    simp only [List.cons_append, tilesB, Bool.and_eq_true, decide_eq_true_eq]
    refine ⟨⟨⟨hf1, hf2⟩, hf3⟩, ?_⟩
    apply ih f.endPos e hrest ?_ h2 h3
    simp only [textOfEntries, List.map_cons, List.flatten_cons,
      List.length_append] at h1 ⊢
    omega

/-- Pushing a real text entry preserves the tiling invariant. -/
theorem pushText_inv (st : WalkSt) (path : List Nat) (s : Str)
    (h1 : tilesB 0 st.entries = true)
    (h2 : st.offset = (textOfEntries st.entries).length) :
    tilesB 0 (pushText st path s).entries = true ∧
      (pushText st path s).offset =
        (textOfEntries (pushText st path s).entries).length := by
  constructor
  · apply tilesB_snoc _ _ _ h1
    · simpa using h2
    · rfl
    · intro hx; exact (Bool.false_ne_true hx).elim
  · simp only [pushText, textOfEntries_append, List.length_append]
    omega

/-- Pushing a synthetic newline entry preserves the tiling invariant. -/
theorem pushNewline_inv (st : WalkSt)
    (h1 : tilesB 0 st.entries = true)
    (h2 : st.offset = (textOfEntries st.entries).length) :
    tilesB 0 (pushNewline st).entries = true ∧
      (pushNewline st).offset =
        (textOfEntries (pushNewline st).entries).length := by
  constructor
  · apply tilesB_snoc _ _ _ h1
    · simpa using h2
    · rfl
    · intro _; rfl
  · simp only [pushNewline, textOfEntries_append, List.length_append]
    simp [h2]

mutual

/-- The walk preserves the tiling invariant (single node). -/
theorem walkNode_inv : ∀ (t : DomNode) (st : WalkSt) (path : List Nat),
    tilesB 0 st.entries = true ∧ st.offset = (textOfEntries st.entries).length →
    tilesB 0 (walkNode st path t).entries = true ∧
      (walkNode st path t).offset =
        (textOfEntries (walkNode st path t).entries).length
  | .text s, st, path, h => by
    rw [walkNode]
    split
    · exact pushText_inv st path s h.1 h.2
    · exact h
  | .elem tag classes children, st, path, h => by
    rw [walkNode]
    split
    · exact h
    · split
      · exact pushNewline_inv st h.1 h.2
      · apply walkChildren_inv children _ path 0
        split
        · exact pushNewline_inv st h.1 h.2
        · exact h

/-- The walk preserves the tiling invariant (child list). -/
theorem walkChildren_inv : ∀ (ts : List DomNode) (st : WalkSt)
    (path : List Nat) (i : Nat),
    tilesB 0 st.entries = true ∧ st.offset = (textOfEntries st.entries).length →
    tilesB 0 (walkChildren st path i ts).entries = true ∧
      (walkChildren st path i ts).offset =
        (textOfEntries (walkChildren st path i ts).entries).length
  | [], st, path, i, h => h
  | c :: cs, st, path, i, h => by
    rw [walkChildren]
    exact walkChildren_inv cs _ path (i + 1) (walkNode_inv c st (path ++ [i]) h)

end

/-- The node map of `buildTextMap` tiles the flat text from offset 0. -/
theorem buildTextMap_tiles (root : DomNode) :
    tilesB 0 (buildTextMap root).2 = true := by
  cases root with
  | text s => rfl
  | elem tag classes children =>
    exact (walkChildren_inv children (WalkSt.mk [] 0) [] 0 ⟨rfl, rfl⟩).1

/-- The flat text of `buildTextMap` is the concatenation of its entries'
contents. -/
theorem buildTextMap_text (root : DomNode) :
    (buildTextMap root).1 = textOfEntries (buildTextMap root).2 := by
  cases root <;> rfl

/-- Any entry of a tiled node map occupies exactly its recorded range of
the flat text; synthetic entries carry exactly the boundary newline. -/
theorem tilesB_extract : ∀ (es : List MapEntry) (n : Nat) (e : MapEntry),
    tilesB n es = true → e ∈ es →
    ∃ pre post, textOfEntries es = pre ++ e.content ++ post ∧
      n + pre.length = e.start ∧
      e.endPos = e.start + e.content.length ∧
      (e.synthetic = true → e.content = ['\n']) := by
  intro es
  induction es with
  | nil => intro n e _ hmem; cases hmem
  | cons f es ih =>
    intro n e h hmem
    simp only [tilesB, Bool.and_eq_true, decide_eq_true_eq] at h
    obtain ⟨⟨⟨hf1, hf2⟩, hf3⟩, hrest⟩ := h
    cases hmem with
    | head =>
      refine ⟨[], textOfEntries es, by simp [textOfEntries],
        by simpa using hf1.symm, by omega, ?_⟩
      intro hs
      rw [hs] at hf3
      simpa using hf3
    | tail _ hmem =>
      obtain ⟨pre, post, hx, hlen, hend, hsyn⟩ := ih f.endPos e hrest hmem
      refine ⟨f.content ++ pre, post, ?_, ?_, hend, hsyn⟩
      · simp [textOfEntries, List.map_cons, List.flatten_cons] at hx ⊢
        rw [hx]
      · simp only [List.length_append]
        omega


/-- Unfolded form of `jsSubstring`. -/
theorem jsSubstring_eq (t : Str) (a b : Nat) :
    jsSubstring t a b =
      (t.drop (min (min a b) t.length)).take
        (min (max a b) t.length - min (min a b) t.length) := rfl

/-- A substring whose clamped range covers a newline of the text contains
that newline. -/
theorem substring_contains_newline (text pre post : Str) (s t : Nat)
    (htext : text = pre ++ '\n' :: post)
    (h1 : s ≤ pre.length) (h2 : pre.length + 1 ≤ t) :
    containsChar (jsSubstring text s t) '\n' = true := by
  subst htext
  have hlen : (pre ++ '\n' :: post).length = pre.length + 1 + post.length := by
    simp
    omega
  have hlo : min (min s t) (pre ++ '\n' :: post).length = s := by
    rw [Nat.min_eq_left (by omega), Nat.min_eq_left (by omega)]
  have hhi : pre.length + 1 ≤ min (max s t) (pre ++ '\n' :: post).length := by
    rw [Nat.max_eq_right (by omega)]
    exact Nat.le_min.mpr ⟨h2, by omega⟩
  rw [containsChar, jsSubstring_eq, hlo]
  have hk : (((pre ++ '\n' :: post).drop s).take
      (min (max s t) (pre ++ '\n' :: post).length - s))[pre.length - s]? =
        some '\n' := by
    rw [List.getElem?_take, if_pos (by omega), List.getElem?_drop]
    have hs : s + (pre.length - s) = pre.length := by omega
    rw [hs, List.getElem?_append_right (Nat.le_refl pre.length)]
    simp
  obtain ⟨hi2, hv⟩ := List.getElem?_eq_some.mp hk
  have hmem := List.getElem_mem hi2
  rw [hv] at hmem
  exact List.elem_iff.mpr hmem

/-- Membership in the stable descending insertion. -/
theorem mem_insertDescByStart (x y : FixItem) :
    ∀ l, y ∈ insertDescByStart x l ↔ y = x ∨ y ∈ l := by
  intro l
  induction l with
  | nil => simp [insertDescByStart]
  | cons z zs ih =>
    rw [insertDescByStart]
    split
    · simp only [List.mem_cons, ih]
      tauto
    · simp only [List.mem_cons]

/-- The descending sort of the fixes is a permutation membership-wise. -/
theorem mem_sortDescByStart (l : List FixItem) (y : FixItem) :
    y ∈ sortDescByStart l ↔ y ∈ l := by
  induction l with
  | nil => simp [sortDescByStart]
  | cons x xs ih =>
    simp only [sortDescByStart, List.foldr_cons] at ih ⊢
    rw [mem_insertDescByStart, ih, List.mem_cons]

/-- Every trace step of the fix loop records one of the fixes. -/
theorem applyFixStep_fix (edit : DomEdit) (tree : DomNode) (f : FixItem) :
    (applyFixStep edit tree f).fix = f := by
  unfold applyFixStep
  split
  · rfl
  · split <;> rfl

/-- The fixes recorded by the loop trace are from the given fix list. -/
theorem applyFixLoop_fix_mem (edit : DomEdit) :
    ∀ (fixes : List FixItem) (tree : DomNode) (step : FixStep),
      step ∈ (applyFixLoop edit tree fixes).2 → step.fix ∈ fixes := by
  intro fixes
  induction fixes with
  | nil => intro tree step h; cases h
  | cons f fs ih =>
    intro tree step h
    rw [applyFixLoop] at h
    cases h with
    | head => rw [applyFixStep_fix]; exact List.mem_cons_self _ _
    | tail _ h => exact List.mem_cons_of_mem _ (ih _ step h)

/-- C7: during batch fix application, no applied fix's span covers a
synthetic boundary entry of the snapshot's node map: a lint whose
spanned snapshot text straddles an inserted `'\n'` never reaches the fix
loop (the `fixable` filter drops it), so it is skipped rather than
edited. -/
theorem applyAllFixes_skips_boundary_straddling_lints
    (edit : DomEdit) (tree0 tree : DomNode) (st : CEState) (cursor : Int)
    (e : MapEntry)
    (hst : st.text = (buildTextMap tree0).1)
    (he : e ∈ (buildTextMap tree0).2)
    (hsyn : e.synthetic = true) :
    ∀ step ∈ (applyAllFixes edit tree st cursor).2.2,
      ¬ (step.fix.spanStart ≤ e.start ∧ e.endPos ≤ step.fix.spanEnd) := by
  intro step hstep hc
  obtain ⟨hc1, hc2⟩ := hc
  obtain ⟨pre, post, htext, hlen, hend, hsy⟩ :=
    tilesB_extract _ 0 e (buildTextMap_tiles tree0) he
  have hcontent : e.content = ['\n'] := hsy hsyn
  rw [hcontent] at htext hend
  have htext' : st.text = pre ++ '\n' :: post := by
    rw [hst, buildTextMap_text tree0, htext]
    simp
  have hpre : pre.length = e.start := by simpa using hlen
  have hend1 : e.endPos = e.start + 1 := by simpa using hend
  revert hstep
  unfold applyAllFixes
  split
  · intro hstep; cases hstep
  · split
    · intro hstep; cases hstep
    · intro hstep
      have hfm := applyFixLoop_fix_mem edit _ tree step hstep
      unfold fixesOf at hfm
      rw [mem_sortDescByStart] at hfm
      obtain ⟨l, hl, hmk⟩ := List.mem_map.mp hfm
      have hlf := (List.mem_filter.mp hl).2
      simp only [Bool.and_eq_true] at hlf
      have hnc : containsChar (jsSubstring st.text l.span.start l.span.endPos) '\n' = false := by
        simpa using hlf.1.2
      have hss : step.fix.spanStart = l.span.start := by rw [← hmk]; rfl
      have hse : step.fix.spanEnd = l.span.endPos := by rw [← hmk]; rfl
      have hcontains := substring_contains_newline st.text pre post
        l.span.start l.span.endPos htext' (by omega) (by omega)
      rw [hnc] at hcontains
      exact Bool.false_ne_true hcontains

/-- Witness for C7: on the demonstration tree, the synthetic boundary at
offsets 12-13 is covered by no applied fix's span (in particular
`demoLintB`, which straddles it, is skipped). -/
theorem applyAllFixes_skips_boundary_straddling_lints_witness :
    demoCEState.text = (buildTextMap demoTree).1 ∧
    (⟨none, ['\n'], 12, 13, true⟩ : MapEntry) ∈ (buildTextMap demoTree).2 ∧
    (⟨none, ['\n'], 12, 13, true⟩ : MapEntry).synthetic = true ∧
    ∀ step ∈ (applyAllFixes demoEdit demoTree demoCEState (-1)).2.2,
      ¬ (step.fix.spanStart ≤ (⟨none, ['\n'], 12, 13, true⟩ : MapEntry).start ∧
         (⟨none, ['\n'], 12, 13, true⟩ : MapEntry).endPos ≤ step.fix.spanEnd) :=
  ⟨rfl, by decide, rfl,
   applyAllFixes_skips_boundary_straddling_lints demoEdit demoTree demoTree
     demoCEState (-1) ⟨none, ['\n'], 12, 13, true⟩ rfl (by decide) rfl⟩


/-- The stable descending insertion preserves descending order. -/
theorem pairwise_insertDescByStart (x : FixItem) :
    ∀ (l : List FixItem),
      List.Pairwise (fun a b => b.spanStart ≤ a.spanStart) l →
      List.Pairwise (fun a b => b.spanStart ≤ a.spanStart) (insertDescByStart x l) := by
  intro l
  induction l with
  | nil => intro _; simp [insertDescByStart]
  | cons y ys ih =>
    intro h
    obtain ⟨hy, hys⟩ := List.pairwise_cons.mp h
    rw [insertDescByStart]
    split
    next hlt =>
      refine List.Pairwise.cons ?_ (ih hys)
      intro z hz
      rw [mem_insertDescByStart] at hz
      rcases hz with rfl | hz
      · omega
      · exact hy z hz
    next hge =>
      refine List.Pairwise.cons ?_ (List.Pairwise.cons hy hys)
      intro z hz
      rcases List.mem_cons.mp hz with rfl | hz
      · omega
      · have := hy z hz
        omega

/-- `sort((a, b) => b.span.start - a.span.start)` orders the fixes by
descending recorded span start. -/
theorem pairwise_sortDescByStart (l : List FixItem) :
    List.Pairwise (fun a b => b.spanStart ≤ a.spanStart) (sortDescByStart l) := by
  induction l with
  | nil => simp [sortDescByStart]
  | cons x xs ih =>
    exact pairwise_insertDescByStart x _ ih

/-- The fix loop's trace records the given fixes in order. -/
theorem applyFixLoop_map_fix (edit : DomEdit) :
    ∀ (fixes : List FixItem) (tree : DomNode),
      ((applyFixLoop edit tree fixes).2.map (fun s => s.fix)) = fixes := by
  intro fixes
  induction fixes with
  | nil => intro tree; rfl
  | cons f fs ih =>
    intro tree
    rw [applyFixLoop]
    simp [applyFixStep_fix, ih]

/-- Every trace step arises as `applyFixStep` on some intermediate tree. -/
theorem applyFixLoop_mem_step (edit : DomEdit) :
    ∀ (fixes : List FixItem) (tree : DomNode) (step : FixStep),
      step ∈ (applyFixLoop edit tree fixes).2 →
      ∃ t f, step = applyFixStep edit t f := by
  intro fixes
  induction fixes with
  | nil => intro tree step h; cases h
  | cons f fs ih =>
    intro tree step h
    rw [applyFixLoop] at h
    cases h with
    | head => exact ⟨tree, f, rfl⟩
    | tail _ h => exact ih _ step h

/-- A step records the tree it started from. -/
theorem applyFixStep_treeBefore (edit : DomEdit) (tree : DomNode) (f : FixItem) :
    (applyFixStep edit tree f).treeBefore = tree := by
  unfold applyFixStep
  split
  · rfl
  · split <;> rfl

/-- A step records the text rebuilt from the tree it started from. -/
theorem applyFixStep_rebuiltText (edit : DomEdit) (tree : DomNode) (f : FixItem) :
    (applyFixStep edit tree f).rebuiltText = (buildTextMap tree).1 := by
  unfold applyFixStep
  split
  · rfl
  · split <;> rfl

/-- A step locates its fix with `fixLocate` on the rebuilt text. -/
theorem applyFixStep_located (edit : DomEdit) (tree : DomNode) (f : FixItem) :
    (applyFixStep edit tree f).located = fixLocate (buildTextMap tree).1 f := by
  unfold applyFixStep
  split
  next heq => rw [heq]
  next s heq => split <;> rw [heq]

/-- A fix whose problem text is found nowhere is skipped: the tree is
unchanged by that step. -/
theorem applyFixStep_skip (edit : DomEdit) (tree : DomNode) (f : FixItem) :
    (applyFixStep edit tree f).located = none →
    (applyFixStep edit tree f).treeAfter = tree := by
  unfold applyFixStep
  split
  · intro _; rfl
  · split <;> (intro h; exact Option.noConfusion h)

/-- A local-window hit relocates the fix at the window-relative index
shifted by the window start. -/
theorem fixLocate_local (text : Str) (f : FixItem) (k : Nat)
    (h : indexOfStr (localWindow text f) f.problem = some k) :
    fixLocate text f = some (f.originalStart - 50 + k) := by
  unfold fixLocate
  rw [h]

/-- A local-window miss falls back to a whole-text search. -/
theorem fixLocate_global (text : Str) (f : FixItem)
    (h : indexOfStr (localWindow text f) f.problem = none) :
    fixLocate text f = indexOfStr text f.problem := by
  unfold fixLocate
  rw [h]

/-- C6: batch fix application processes the selected fixes in descending
order of their originally recorded span starts; every step's text map is
rebuilt from the tree current at that step; each fix is relocated by the
bounded local window around its originally recorded offset, with the
whole-text search used exactly when the window misses; and a fix found
nowhere leaves the tree unchanged (it is skipped). -/
theorem applyAllFixes_desc_order_rebuild_relocate
    (edit : DomEdit) (tree : DomNode) (st : CEState) (cursor : Int) :
    List.Pairwise (fun a b => b.fix.spanStart ≤ a.fix.spanStart)
      (applyAllFixes edit tree st cursor).2.2 ∧
    ∀ step ∈ (applyAllFixes edit tree st cursor).2.2,
      step.rebuiltText = (buildTextMap step.treeBefore).1 ∧
      step.located = fixLocate step.rebuiltText step.fix ∧
      (∀ k, indexOfStr (localWindow step.rebuiltText step.fix) step.fix.problem = some k →
        step.located = some (step.fix.originalStart - 50 + k)) ∧
      (indexOfStr (localWindow step.rebuiltText step.fix) step.fix.problem = none →
        step.located = indexOfStr step.rebuiltText step.fix.problem) ∧
      (step.located = none → step.treeAfter = step.treeBefore) := by
  constructor
  · unfold applyAllFixes
    split
    · exact List.Pairwise.nil
    · split
      · exact List.Pairwise.nil
      · have hmap := applyFixLoop_map_fix edit (fixesOf st cursor) tree
        have hp := pairwise_sortDescByStart
          ((fixableOf st (paraRangeOf st cursor)).map (mkFixItem st))
        rw [show sortDescByStart ((fixableOf st (paraRangeOf st cursor)).map (mkFixItem st)) =
            fixesOf st cursor from rfl, ← hmap] at hp
        exact List.pairwise_map.mp hp
  · intro step hstep
    have hsrc : ∃ t f, step = applyFixStep edit t f := by
      revert hstep
      unfold applyAllFixes
      split
      · intro hstep; cases hstep
      · split
        · intro hstep; cases hstep
        · intro hstep
          exact applyFixLoop_mem_step edit _ tree step hstep
    obtain ⟨t, f, rfl⟩ := hsrc
    refine ⟨?_, ?_, ?_, ?_, ?_⟩
    · rw [applyFixStep_rebuiltText, applyFixStep_treeBefore]
    · rw [applyFixStep_located, applyFixStep_rebuiltText, applyFixStep_fix]
    · intro k hk
      rw [applyFixStep_rebuiltText, applyFixStep_fix] at hk
      rw [applyFixStep_located, applyFixStep_fix]
      exact fixLocate_local _ _ _ hk
    · intro hk
      rw [applyFixStep_rebuiltText, applyFixStep_fix] at hk
      rw [applyFixStep_located, applyFixStep_rebuiltText, applyFixStep_fix]
      exact fixLocate_global _ _ hk
    · intro hnone
      rw [applyFixStep_skip edit t f hnone, applyFixStep_treeBefore]

/-- Witness for C6 on the demonstration tree and state: the theorem's
conclusions at the single trace step. -/
theorem applyAllFixes_desc_order_rebuild_relocate_witness :
    (applyFixStep demoEdit demoTree demoFixItem) ∈
      (applyAllFixes demoEdit demoTree demoCEState (-1)).2.2 ∧
    List.Pairwise (fun a b => b.fix.spanStart ≤ a.fix.spanStart)
      (applyAllFixes demoEdit demoTree demoCEState (-1)).2.2 ∧
    ((applyFixStep demoEdit demoTree demoFixItem).rebuiltText =
      (buildTextMap (applyFixStep demoEdit demoTree demoFixItem).treeBefore).1 ∧
     (applyFixStep demoEdit demoTree demoFixItem).located =
      fixLocate (applyFixStep demoEdit demoTree demoFixItem).rebuiltText
        (applyFixStep demoEdit demoTree demoFixItem).fix ∧
     (∀ k, indexOfStr
        (localWindow (applyFixStep demoEdit demoTree demoFixItem).rebuiltText
          (applyFixStep demoEdit demoTree demoFixItem).fix)
        (applyFixStep demoEdit demoTree demoFixItem).fix.problem = some k →
       (applyFixStep demoEdit demoTree demoFixItem).located =
         some ((applyFixStep demoEdit demoTree demoFixItem).fix.originalStart - 50 + k)) ∧
     (indexOfStr
        (localWindow (applyFixStep demoEdit demoTree demoFixItem).rebuiltText
          (applyFixStep demoEdit demoTree demoFixItem).fix)
        (applyFixStep demoEdit demoTree demoFixItem).fix.problem = none →
       (applyFixStep demoEdit demoTree demoFixItem).located =
         indexOfStr (applyFixStep demoEdit demoTree demoFixItem).rebuiltText
           (applyFixStep demoEdit demoTree demoFixItem).fix.problem) ∧
     ((applyFixStep demoEdit demoTree demoFixItem).located = none →
       (applyFixStep demoEdit demoTree demoFixItem).treeAfter =
         (applyFixStep demoEdit demoTree demoFixItem).treeBefore)) := by
  have hmem : (applyFixStep demoEdit demoTree demoFixItem) ∈
      (applyAllFixes demoEdit demoTree demoCEState (-1)).2.2 := by
    rw [show (applyAllFixes demoEdit demoTree demoCEState (-1)).2.2 =
      [applyFixStep demoEdit demoTree demoFixItem] from rfl]
    exact List.mem_singleton.mpr rfl
  exact ⟨hmem,
    (applyAllFixes_desc_order_rebuild_relocate demoEdit demoTree demoCEState (-1)).1,
    (applyAllFixes_desc_order_rebuild_relocate demoEdit demoTree demoCEState (-1)).2 _ hmem⟩

end WH
